import Mathlib

/-!
# sbcntr-batch: the reservation finalisation batch

A shallow embedding of the reservation batch of `uma-arai/sbcntr-batch`:

* `internal/common/models/reservation.go`, `internal/model/reservation.go`,
  `internal/model/notification.go` (data model, `ToNotificationRecord`);
* `internal/repository/reservation.go` (the store operations);
* `internal/service/batch/reservation.go` (`processReservationsByStatus`,
  `sendTaskSuccess`, `Run`);
* `internal/common/utils/context.go` (`RunWithTimeout`);
* `cmd/batch/reservation/main.go` (the command line of `main`, lines 29-41, and its tail
  from the `select` on);
* `internal/repository/notification.go`, `internal/repository/pet.go`,
  `internal/service/batch/notification.go` (the notification batch) and
  `generateNotificationsFromTaskToken` of `cmd/batch/notification/main.go`.

Instants (`time.Time`) are natural numbers.  The database is a list of rows
(the committed content of table `reservations`) together with a log of the
statements issued, each with the handle it was issued on.  What the outside
world decides (whether a driver call returns an error, what the clocks read,
which case of a `select` fires) is an explicit argument, and so are the functions
of the Go library that work on text (`time.Parse`, `Format`, which instants
`encoding/json` writes, `json.Unmarshal` of the task token).
-/

namespace SbcntrBatch

/-! ## Data model -/

/-- Row of table `reservations`: `models.Reservation`. -/
structure Reservation where
  ReservationID : Int
  UserID : String
  UserName : String
  Email : String
  ReservationDateTime : Nat
  PetID : String
  CreatedAt : Nat
  UpdatedAt : Nat
  Status : String
deriving DecidableEq, Repr

/-- Outcome event: `model.ReservationEvent`. -/
structure ReservationEvent where
  UserID : String
  DateTime : Nat
  PetID : String
  CreatedAt : Nat
deriving DecidableEq, Repr

/-- Handle a statement is issued on: the shared pool `r.db`, or transaction number `n`. -/
inductive Handle where
  | pool
  | tx (n : Nat)
deriving DecidableEq, Repr

/-- Statements and transaction-control calls, as they reach the database driver. -/
inductive Op where
  /-- `QueryContext` of `GetReservationsByStatus`. -/
  | selectByStatus (h : Handle) (status : String)
  /-- `BeginTxx` that returned transaction `n`. -/
  | beginTx (n : Nat)
  /-- `QueryRowContext` of `CheckExistingReservation`. -/
  | selectExists (h : Handle) (petID : String)
  /-- `ExecContext` of `UpdateStatus`. -/
  | update (h : Handle) (reservationID : Int) (status : String)
  /-- `tx.Commit()`, with whether it succeeded. -/
  | commit (n : Nat) (ok : Bool)
  /-- `tx.Rollback()`. -/
  | rollback (n : Nat)
deriving DecidableEq, Repr

/-- Database as seen by one process: committed rows, number of transactions
begun so far, and the log of calls. -/
structure DB where
  rows : List Reservation
  txCount : Nat
  log : List Op
deriving DecidableEq, Repr

/-- Pending write of a transaction: `SET status, updated_at WHERE id`. -/
structure Write where
  reservationID : Int
  status : String
  updatedAt : Nat
deriving DecidableEq, Repr

/-- Open transaction (`*sqlx.Tx`): its number and the writes it has made, oldest first. -/
structure Tx where
  id : Nat
  writes : List Write
deriving DecidableEq, Repr

/-- What the outside world decides while one backlog item is processed. -/
structure ItemEnv where
  /-- `BeginTxx` returns an error. -/
  beginErr : Bool
  /-- `QueryRowContext(...).Scan` of the existence check returns an error. -/
  checkErr : Bool
  /-- `tx.ExecContext` of the update returns an error. -/
  execErr : Bool
  /-- `result.RowsAffected()` returns an error. -/
  rowsAffectedErr : Bool
  /-- `tx.Commit()` returns an error; the transaction is then not applied. -/
  commitErr : Bool
  /-- `tx.Rollback()` returns an error (only logged). -/
  rollbackErr : Bool
  /-- Value of SQL `NOW()` in the existence check. -/
  dbNow : Nat
  /-- Value of `time.Now()` in `UpdateStatus`. -/
  appNow : Nat
deriving DecidableEq, Repr

/-- What the outside world decides during one call of `processReservationsByStatus`. -/
structure Env where
  /-- The initial read fails (`QueryContext`, `Scan` or `rows.Err`). -/
  fetchErr : Bool
  /-- World of the `i`-th backlog item, counted from 0. -/
  item : Nat → ItemEnv

/-! ## Transition store: `internal/repository/reservation.go` -/

/-- Effect of one write on one row: `UPDATE ... SET status, updated_at WHERE id = $3`. -/
def applyWrite (w : Write) (r : Reservation) : Reservation :=
  if r.ReservationID = w.reservationID then
    { r with Status := w.status, UpdatedAt := w.updatedAt }
  else r

/-- Rows after the writes of a transaction, oldest first. -/
def applyWrites (ws : List Write) (rows : List Reservation) : List Reservation :=
  ws.foldl (fun acc w => acc.map (applyWrite w)) rows

/-- Order of `ORDER BY reservation_date_time ASC`. -/
def byDateTime (a b : Reservation) : Prop :=
  a.ReservationDateTime ≤ b.ReservationDateTime

instance : DecidableRel byDateTime :=
  fun a b => inferInstanceAs (Decidable (a.ReservationDateTime ≤ b.ReservationDateTime))

/-- `BeginTx`: `r.db.BeginTxx(ctx, nil)`. -/
def BeginTx (beginErr : Bool) (db : DB) : DB × Except String Tx :=
  if beginErr then (db, .error "begin failed")
  else
    ({ db with txCount := db.txCount + 1, log := db.log ++ [Op.beginTx db.txCount] },
      .ok { id := db.txCount, writes := [] })

/-- `GetReservationsByStatus`: the rows with the given status, by ascending
scheduled time (rows with equal times keep their table order). -/
def GetReservationsByStatus (fetchErr : Bool) (db : DB) (status : String) :
    DB × Except String (List Reservation) :=
  let db1 := { db with log := db.log ++ [Op.selectByStatus Handle.pool status] }
  if fetchErr then
    (db1, .error ("failed to query reservations with status " ++ status))
  else
    (db1, .ok ((db.rows.filter (fun r => r.Status = status)).insertionSort byDateTime))

/-- Row test of the existence query: `pet_id = $1 AND status = 'confirmed' AND
reservation_date_time > NOW()`. -/
def futureConfirmed (now : Nat) (petID : String) (r : Reservation) : Bool :=
  decide (r.PetID = petID) && decide (r.Status = "confirmed") &&
    decide (now < r.ReservationDateTime)

/-- `CheckExistingReservation`: `SELECT EXISTS (...)` issued with
`r.db.QueryRowContext`, that is on the pool. -/
def CheckExistingReservation (checkErr : Bool) (now : Nat) (db : DB) (petID : String) :
    DB × Except String Bool :=
  let db1 := { db with log := db.log ++ [Op.selectExists Handle.pool petID] }
  if checkErr then (db1, .error "failed to check existing reservation")
  else (db1, .ok (db.rows.any (futureConfirmed now petID)))

/-- `UpdateStatus`: `tx.ExecContext` of the update, then `RowsAffected`; zero
rows is an error.  The write stays in the transaction until the caller ends it. -/
def UpdateStatus (execErr rowsAffectedErr : Bool) (appNow : Nat) (db : DB) (tx : Tx)
    (reservationID : Int) (status : String) : DB × Tx × Except String Unit :=
  let db1 := { db with log := db.log ++ [Op.update (Handle.tx tx.id) reservationID status] }
  if execErr then (db1, tx, .error "failed to update reservation status")
  else
    let tx1 : Tx := { tx with writes := tx.writes ++ [⟨reservationID, status, appNow⟩] }
    let rowsAffected :=
      ((applyWrites tx.writes db.rows).filter (fun r => r.ReservationID = reservationID)).length
    if rowsAffectedErr then (db1, tx1, .error "failed to get rows affected")
    else if rowsAffected = 0 then
      (db1, tx1, .error ("no reservation found with ID " ++ toString reservationID))
    else (db1, tx1, .ok ())

/-- `tx.Commit()`: on success the writes of the transaction become the committed rows. -/
def Commit (commitErr : Bool) (db : DB) (tx : Tx) : DB × Except String Unit :=
  if commitErr then
    ({ db with log := db.log ++ [Op.commit tx.id false] }, .error "commit failed")
  else
    ({ db with rows := applyWrites tx.writes db.rows,
               log := db.log ++ [Op.commit tx.id true] }, .ok ())

/-- `tx.Rollback()`: the writes of the transaction are dropped. -/
def Rollback (rollbackErr : Bool) (db : DB) (tx : Tx) : DB × Except String Unit :=
  ({ db with log := db.log ++ [Op.rollback tx.id] },
    if rollbackErr then .error "rollback failed" else .ok ())

/-! ## Batch driver: `internal/service/batch/reservation.go` -/

/-- Event built at the end of the loop body from the backlog copy of the row. -/
def eventOf (reservation : Reservation) : ReservationEvent :=
  { UserID := reservation.UserID
    DateTime := reservation.ReservationDateTime
    PetID := reservation.PetID
    CreatedAt := reservation.CreatedAt }

/-- Body of the `for` loop of `processReservationsByStatus` (lines 106-163) for
one backlog item: the database afterwards and the event appended, if any
(`none` is a `continue`; `updated` is the `if exists ... else ...` block, `none` when
it ends in `continue`). -/
def processReservation (e : ItemEnv) (db : DB) (reservation : Reservation) :
    DB × Option ReservationEvent :=
  match BeginTx e.beginErr db with
  | (db1, .error _) => (db1, none)
  | (db1, .ok tx) =>
    match CheckExistingReservation e.checkErr e.dbNow db1 reservation.PetID with
    | (db2, .error _) => ((Rollback e.rollbackErr db2 tx).1, none)
    | (db2, .ok isExisting) =>
      let updated : DB × Option Tx :=
        if isExisting then
          match UpdateStatus e.execErr e.rowsAffectedErr e.appNow db2 tx
              reservation.ReservationID "cancelled" with
          | (db3, tx1, .error _) => ((Rollback e.rollbackErr db3 tx1).1, none)
          | (db3, tx1, .ok _) => (db3, some tx1)
        else
          match UpdateStatus e.execErr e.rowsAffectedErr e.appNow db2 tx
              reservation.ReservationID "confirmed" with
          | (db3, tx1, .error _) => ((Rollback e.rollbackErr db3 tx1).1, none)
          | (db3, tx1, .ok _) => (db3, some tx1)
      match updated with
      | (db3, none) => (db3, none)
      | (db3, some tx1) =>
        match Commit e.commitErr db3 tx1 with
        | (db4, .error _) => (db4, none)
        | (db4, .ok _) => (db4, some (eventOf reservation))

/-- The `for` loop of `processReservationsByStatus`; `i` is the index of the
head of the remaining backlog, `events` the slice built so far. -/
def processLoop (item : Nat → ItemEnv) :
    Nat → List Reservation → DB → List ReservationEvent → DB × List ReservationEvent
  | _, [], db, events => (db, events)
  | i, reservation :: rest, db, events =>
    match processReservation (item i) db reservation with
    | (db1, some ev) => processLoop item (i + 1) rest db1 (events ++ [ev])
    | (db1, none) => processLoop item (i + 1) rest db1 events

/-- `processReservationsByStatus(ctx, status)`. -/
def processReservationsByStatus (env : Env) (db : DB) (status : String) :
    DB × Except String (List ReservationEvent) :=
  match GetReservationsByStatus env.fetchErr db status with
  | (db1, .error err) =>
    (db1, .error ("failed to get reservations with status " ++ status ++ ": " ++ err))
  | (db1, .ok reservations) =>
    let out := processLoop env.item 0 reservations db1 []
    (out.1, .ok out.2)

/-! ## Sample worlds and rows -/

/-- World in which nothing fails and both clocks read `now`. -/
def calm (now : Nat) : ItemEnv :=
  { beginErr := false, checkErr := false, execErr := false, rowsAffectedErr := false,
    commitErr := false, rollbackErr := false, dbNow := now, appNow := now }

/-- Pending row of user `u` for pet `p` at time `t`. -/
def pendingRow (id : Int) (u p : String) (t : Nat) : Reservation :=
  { ReservationID := id, UserID := u, UserName := "", Email := "",
    ReservationDateTime := t, PetID := p, CreatedAt := 1, UpdatedAt := 1,
    Status := "pending" }

/-! ## Completion reporter and execution harness -/

/-- Dynamic values (`interface{}`) other than maps: what is found under a key of
`Notification.Data`, or `Data` itself when it is not a map. -/
inductive DataValue where
  | str (s : String)
  | time (t : Nat)
  | num (n : Int)
  | bool (b : Bool)
  | null
deriving DecidableEq, Repr

/-- Field `Data interface{}` of a notification: a `map[string]interface{}` (key-value
pairs, a key being looked up from the front), or a value of another dynamic type. -/
inductive AnyData where
  | map (entries : List (String × DataValue))
  | value (v : DataValue)
deriving DecidableEq, Repr

/-- Event envelope `model.Notification` (`Type_` is its field `Type`). -/
structure Notification where
  Type_ : String
  CreatedAt : Nat
  Data : AnyData
deriving DecidableEq, Repr

/-- `model.NewReservationNotification`. -/
def NewReservationNotification (event : ReservationEvent) : Notification :=
  { Type_ := "reservation"
    CreatedAt := event.CreatedAt
    Data := AnyData.map [("user_id", DataValue.str event.UserID),
      ("pet_id", DataValue.str event.PetID), ("date_time", DataValue.time event.DateTime)] }

/-- JSON documents; `time t` is the RFC 3339 string `encoding/json` writes for instant `t`.
Members of an object are kept in the order they are written. -/
inductive Json where
  | null
  | bool (b : Bool)
  | num (n : Int)
  | str (s : String)
  | time (t : Nat)
  | arr (items : List Json)
  | obj (members : List (String × Json))

/-- JSON written for a dynamic value. -/
def DataValue.toJson : DataValue → Json
  | DataValue.str s => Json.str s
  | DataValue.time t => Json.time t
  | DataValue.num n => Json.num n
  | DataValue.bool b => Json.bool b
  | DataValue.null => Json.null

/-- Whether `encoding/json` can write the value; `timeOk` tells which instants
`time.Time.MarshalJSON` accepts (those with a year within 0..9999). -/
def DataValue.jsonOk (timeOk : Nat → Bool) : DataValue → Bool
  | DataValue.time t => timeOk t
  | _ => true

/-- JSON written for the `Data` field. -/
def AnyData.toJson : AnyData → Json
  | AnyData.map entries => Json.obj (entries.map (fun kv => (kv.1, kv.2.toJson)))
  | AnyData.value v => v.toJson

/-- Whether `encoding/json` can write the `Data` field. -/
def AnyData.jsonOk (timeOk : Nat → Bool) : AnyData → Bool
  | AnyData.map entries => entries.all (fun kv => kv.2.jsonOk timeOk)
  | AnyData.value v => v.jsonOk timeOk

/-- JSON written for a notification, by its struct tags `type`, `created_at`, `data`. -/
def Notification.toJson (n : Notification) : Json :=
  Json.obj [("type", Json.str n.Type_), ("created_at", Json.time n.CreatedAt),
    ("data", n.Data.toJson)]

/-- Whether `encoding/json` can write the notification. -/
def Notification.jsonOk (timeOk : Nat → Bool) (n : Notification) : Bool :=
  timeOk n.CreatedAt && n.Data.jsonOk timeOk

/-- `json.Marshal(map[string]any{"notifications": notifications})`. -/
def jsonMarshal (timeOk : Nat → Bool) (notifications : List Notification) : Except String Json :=
  if notifications.all (Notification.jsonOk timeOk) then
    .ok (Json.obj [("notifications", Json.arr (notifications.map Notification.toJson))])
  else .error "json: error calling MarshalJSON for type time.Time"

/-- Calls made to the orchestrator (Step Functions), in order. -/
inductive ReportOp where
  /-- `SendTaskSuccess` with the task token and the output document. -/
  | sendTaskSuccess (taskToken : String) (output : Json)
  /-- `SendTaskFailure` with the task token and the error string. -/
  | sendTaskFailure (taskToken : String) (error : String)

/-- Process environment of the reporter. -/
structure SfnEnv where
  /-- `os.Getenv("ENV") == "LOCAL"`. -/
  envLocal : Bool
  /-- The Step Functions client is nil. -/
  clientNil : Bool
  /-- `cfg.SFN.TaskToken`, the token `main` read from the command line. -/
  taskToken : String
  /-- Instants `time.Time.MarshalJSON` accepts (year within 0..9999). -/
  jsonTimeOk : Nat → Bool
  /-- The `SendTaskSuccess` call returns an error. -/
  sendSuccessErr : Bool
  /-- The `SendTaskFailure` call returns an error (only logged). -/
  sendFailureErr : Bool

/-- `sendTaskSuccess(ctx, events)`: the calls made and the error returned. -/
def sendTaskSuccess (w : SfnEnv) (events : List ReservationEvent) :
    List ReportOp × Except String Unit :=
  if w.envLocal || w.clientNil then ([], .ok ())
  else if w.clientNil then ([], .error "sfnClient is not initialized")
  else
    let notifications := events.map NewReservationNotification
    match jsonMarshal w.jsonTimeOk notifications with
    | .error _ => ([], .error "failed to marshal notifications")
    | .ok output =>
      if w.taskToken = "" && !w.envLocal then
        ([], .error "SFN_TASK_TOKEN is not set in config")
      else if w.sendSuccessErr then
        ([ReportOp.sendTaskSuccess w.taskToken output], .error "failed to send task success")
      else ([ReportOp.sendTaskSuccess w.taskToken output], .ok ())

/-- `ReservationBatchService.Run`: database afterwards, calls to the orchestrator, result. -/
def Run (env : Env) (w : SfnEnv) (db : DB) : (DB × List ReportOp) × Except String Unit :=
  match processReservationsByStatus env db "pending" with
  | (db1, .error err) => ((db1, []), .error ("failed to process pending reservations: " ++ err))
  | (db1, .ok events) =>
    match sendTaskSuccess w events with
    | (ops, .error err) => ((db1, ops), .error ("failed to send task success: " ++ err))
    | (ops, .ok _) => ((db1, ops), .ok ())

/-- `utils.RunWithTimeout`: the `select` between the result of `fn` and `ctx.Done()`.
`fn` is given by what it does and returns when it runs to its end; when the timeout
fires first its effects are not observed (`none`). -/
def RunWithTimeout {σ : Type} (timedOut : Bool) (timeout : Nat) (fn : σ × Except String Unit) :
    Option σ × Except String Unit :=
  if timedOut then (none, .error ("batch process timed out after " ++ toString timeout))
  else (some fn.1, fn.2)

/-- Which case wins each `select` of the harness. -/
structure Harness where
  /-- The `select` of `main` receives from `sigChan` before `errChan`. -/
  signalFirst : Bool
  /-- The `select` of `RunWithTimeout` receives `ctx.Done()` before the result of `fn`. -/
  timedOut : Bool
deriving DecidableEq, Repr

/-- What a run of the process leaves behind. -/
structure MainResult where
  /-- Exit code of the process: 1 from `os.Exit(1)`, 0 when `main` returns. -/
  exitCode : Nat
  /-- Database and orchestrator calls of `Run`, when `main` received its own result. -/
  run : Option (DB × List ReportOp)
  /-- Orchestrator calls made by `main` itself. -/
  mainReports : List ReportOp

/-- The `SendTaskFailure` call of `main`. -/
def SendTaskFailure (w : SfnEnv) (taskToken error : String) : List ReportOp × Except String Unit :=
  ([ReportOp.sendTaskFailure taskToken error],
    if w.sendFailureErr then .error "failed to send task failure" else .ok ())

/-- `main` of `cmd/batch/reservation`, from the `select` on (lines 100-136). -/
def main (h : Harness) (env : Env) (w : SfnEnv) (timeout : Nat) (db : DB) : MainResult :=
  if h.signalFirst then
    { exitCode := 0, run := none, mainReports := [] }
  else
    match RunWithTimeout h.timedOut timeout (Run env w db) with
    | (effects, .error _) =>
      if !w.envLocal && !w.clientNil then
        { exitCode := 1, run := effects,
          mainReports := (SendTaskFailure w w.taskToken "Batch process failed").1 }
      else { exitCode := 1, run := effects, mainReports := [] }
    | (effects, .ok _) => { exitCode := 0, run := effects, mainReports := [] }

/-- All orchestrator calls of a process run, in order: those of `Run`, then those of `main`. -/
def MainResult.reports (r : MainResult) : List ReportOp :=
  (match r.run with
    | some eff => eff.2
    | none => []) ++ r.mainReports

/-! ## Notification records: `internal/model/notification.go` -/

/-- Domain record `model.NotificationRecord` (`Type_` is its field `Type`). -/
structure NotificationRecord where
  ID : Int
  UserID : String
  Title : String
  Message : String
  IsRead : Bool
  Type_ : String
  CreatedAt : Nat
  UpdatedAt : Nat
deriving DecidableEq, Repr

/-- Result of a conversion: a value, an error, or the run-time panic of a failing
single-value type assertion `x.(string)`. -/
inductive Outcome (α : Type) where
  | ok (a : α)
  | error (msg : String)
  | panicked
deriving DecidableEq, Repr

/-- `Notification.ToNotificationRecord(petNameMap)`.  `parseRFC3339 v` stands for
`time.Parse(time.RFC3339, v)` (`none` when it returns an error) and `formatMinute t` for
`t.Format("2006-01-02 15:04")`; `petNameMap` is the map as key-value pairs. -/
def ToNotificationRecord (parseRFC3339 : String → Option Nat) (formatMinute : Nat → String)
    (n : Notification) (petNameMap : List (String × String)) : Outcome NotificationRecord :=
  match n.Data with
  | AnyData.value _ => Outcome.error "invalid notification data format"
  | AnyData.map data =>
    if n.Type_ = "reservation" then
      match data.lookup "pet_id" with
      | some (DataValue.str petId) =>
        match petNameMap.lookup petId with
        | none => Outcome.error "pet_id not found in petNameMap"
        | some petName =>
          let parsed : Except String Nat :=
            match data.lookup "date_time" with
            | some (DataValue.time v) => .ok v
            | some (DataValue.str v) =>
              match parseRFC3339 v with
              | some parsedTime => .ok parsedTime
              | none => .error "invalid date_time format"
            | _ => .error "unexpected type for date_time"
          match parsed with
          | .error msg => Outcome.error msg
          | .ok dateTime =>
            let message := "予約が完了しました。見学をお楽しみください。\n予約日時: " ++
              formatMinute dateTime ++ "\nペット名: " ++ petName
            match data.lookup "user_id" with
            | some (DataValue.str userID) =>
              Outcome.ok
                { ID := 0, UserID := userID, Title := "予約が完了しました", Message := message,
                  IsRead := false, Type_ := "reservation", CreatedAt := n.CreatedAt,
                  UpdatedAt := n.CreatedAt }
            | _ => Outcome.panicked
      | _ => Outcome.panicked
    else
      match data.lookup "user_id" with
      | some (DataValue.str userID) =>
        Outcome.ok
          { ID := 0, UserID := userID, Title := "新しい通知が届きました。",
            Message := "新しい通知です。", IsRead := false, Type_ := "common",
            CreatedAt := n.CreatedAt, UpdatedAt := n.CreatedAt }
      | _ => Outcome.panicked

/-! ## Command line of `main`: `cmd/batch/reservation/main.go`, lines 29-41 -/

/-- Name of a flag argument without its dashes: the text before the first `=` that is
not its first character. -/
def flagName : List Char → List Char
  | [] => []
  | c :: rest => c :: rest.takeWhile (fun x => x ≠ '=')

/-- `flag.Parse()` of package `flag` at a moment when no flag is defined, as in `main`,
which calls it before `flag.Duration`: the positional arguments left, or the exit code
with which `Parse` ends the process (2 for an undefined or malformed flag, 0 for
`-h`/`-help`). -/
def flagParse (args : List String) : Except Nat (List String) :=
  match args with
  | [] => .ok []
  | s :: rest =>
    match s.toList with
    | '-' :: c :: more =>
      if c = '-' ∧ more = [] then .ok rest
      else
        let name := if c = '-' then more else c :: more
        match name with
        | [] => .error 2
        | n0 :: _ =>
          if n0 = '-' ∨ n0 = '=' then .error 2
          else if flagName name = "help".toList ∨ flagName name = "h".toList then .error 0
          else .error 2
    | _ => .ok args

/-- `flag.Arg(i)`: the `i`-th positional argument, or the empty string. -/
def flagArg (positional : List String) (i : Int) : String :=
  if i < 0 ∨ (positional.length : Int) ≤ i then "" else positional.getD i.toNat ""

/-- `time.Minute`, in nanoseconds. -/
def Minute : Nat := 60 * 1000000000

/-- Lines 29-41 of `main`: the timeout and the task token the batch runs with, or the
exit code when the process ends there (`log.Fatalf` exits with 1).  The flag
`-timeout` is registered by `flag.Duration` after `flag.Parse()` has run, so `*timeout`
is its default value. -/
def mainArgs (envLocal : Bool) (args : List String) : Except Nat (Nat × String) :=
  match flagParse args with
  | .error code => .error code
  | .ok positional =>
    let timeout := 5 * Minute
    if envLocal then .ok (timeout, "DUMMY_TASK_TOKEN")
    else
      let taskToken := flagArg positional ((positional.length : Int) - 1)
      if taskToken = "" then .error 1 else .ok (timeout, taskToken)

/-! ## Notification batch: `internal/repository/notification.go`, `internal/repository/pet.go`,
`internal/service/batch/notification.go`, `cmd/batch/notification/main.go` -/

/-- Calls of the notification repository that reach the database driver. -/
inductive NotifOp where
  /-- `BeginTxx` that returned transaction `n`. -/
  | beginTx (n : Nat)
  /-- `QueryRowContext` of `Create`: the `INSERT`. -/
  | insert (h : Handle) (record : NotificationRecord)
  /-- `tx.Commit()`, with whether it succeeded. -/
  | commit (n : Nat) (ok : Bool)
  /-- `tx.Rollback()`. -/
  | rollback (n : Nat)
deriving DecidableEq, Repr

/-- Database as seen by the notification batch: committed rows of table `notifications`
(as the records inserted; the `id` the database assigns is left out), number of
transactions begun, log of driver calls, and the calls received by `GetNameByID` and by
`CreateNotifications`, in order. -/
structure NotifDB where
  rows : List NotificationRecord
  txCount : Nat
  log : List NotifOp
  lookups : List String
  creates : List (List NotificationRecord)
deriving DecidableEq, Repr

/-- Open transaction of the notification repository: its number and its inserts. -/
structure NotifTx where
  id : Nat
  inserts : List NotificationRecord
deriving DecidableEq, Repr

/-- What the outside world decides during one run of the notification batch. -/
structure NotifEnv where
  /-- Result of the query of `GetNameByID` for a pet ID (an error when no row is found). -/
  getName : String → Except String String
  /-- `BeginTxx` returns an error. -/
  beginErr : Bool
  /-- The `INSERT` of the `i`-th record returns an error. -/
  createErr : Nat → Bool
  /-- `tx.Commit()` returns an error; the transaction is then not applied. -/
  commitErr : Bool
  /-- `tx.Rollback()` returns an error. -/
  rollbackErr : Bool

/-- `PetRepositoryImpl.GetNameByID`. -/
def PetRepositoryImpl.GetNameByID (env : NotifEnv) (db : NotifDB) (petID : String) :
    NotifDB × Except String String :=
  ({ db with lookups := db.lookups ++ [petID] },
    match env.getName petID with
    | .error e => .error ("failed to get pet name: " ++ e)
    | .ok name => .ok name)

/-- `NotificationRepositoryImpl.BeginTx`. -/
def NotificationRepositoryImpl.BeginTx (beginErr : Bool) (db : NotifDB) :
    NotifDB × Except String NotifTx :=
  if beginErr then (db, .error "begin failed")
  else
    ({ db with txCount := db.txCount + 1, log := db.log ++ [NotifOp.beginTx db.txCount] },
      .ok { id := db.txCount, inserts := [] })

/-- `NotificationRepositoryImpl.Create`: the `INSERT` on the transaction. -/
def NotificationRepositoryImpl.Create (createErr : Bool) (db : NotifDB) (tx : NotifTx)
    (record : NotificationRecord) : NotifDB × NotifTx × Except String Unit :=
  let db1 := { db with log := db.log ++ [NotifOp.insert (Handle.tx tx.id) record] }
  if createErr then (db1, tx, .error "insert failed")
  else (db1, { tx with inserts := tx.inserts ++ [record] }, .ok ())

/-- `tx.Commit()` of the notification repository. -/
def NotifTx.Commit (commitErr : Bool) (db : NotifDB) (tx : NotifTx) :
    NotifDB × Except String Unit :=
  if commitErr then
    ({ db with log := db.log ++ [NotifOp.commit tx.id false] }, .error "commit failed")
  else
    ({ db with rows := db.rows ++ tx.inserts,
               log := db.log ++ [NotifOp.commit tx.id true] }, .ok ())

/-- `tx.Rollback()` of the notification repository. -/
def NotifTx.Rollback (rollbackErr : Bool) (db : NotifDB) (tx : NotifTx) :
    NotifDB × Except String Unit :=
  ({ db with log := db.log ++ [NotifOp.rollback tx.id] },
    if rollbackErr then .error "rollback failed" else .ok ())

/-- The `for` loop of `CreateNotifications`; `i` is the index of the head of the records
left.  Its `if err := r.Create(...)` declares a new `err`. -/
def NotificationRepositoryImpl.createLoop (env : NotifEnv) :
    Nat → List NotificationRecord → NotifDB → NotifTx → NotifDB × NotifTx × Except String Unit
  | _, [], db, tx => (db, tx, .ok ())
  | i, record :: rest, db, tx =>
    match NotificationRepositoryImpl.Create (env.createErr i) db tx record with
    | (db1, tx1, .error e) => (db1, tx1, .error ("failed to create notification: " ++ e))
    | (db1, tx1, .ok _) => NotificationRepositoryImpl.createLoop env (i + 1) rest db1 tx1

/-- `NotificationRepositoryImpl.CreateNotifications`.  `body` is the function body after
`defer`, with the value the variable `err` of the function holds when it returns: the
error of `Create` is held by the `err` of the `if` statement, so `err` is still nil
there, while `err = tx.Commit()` assigns it.  The deferred function then rolls back
when `err` is not nil. -/
def NotificationRepositoryImpl.CreateNotifications (env : NotifEnv) (db : NotifDB)
    (records : List NotificationRecord) : NotifDB × Except String Unit :=
  let db0 := { db with creates := db.creates ++ [records] }
  match NotificationRepositoryImpl.BeginTx env.beginErr db0 with
  | (db1, .error e) => (db1, .error ("failed to begin transaction: " ++ e))
  | (db1, .ok tx) =>
    let body : NotifDB × NotifTx × Except String Unit × Option String :=
      match NotificationRepositoryImpl.createLoop env 0 records db1 tx with
      | (db2, tx1, .error e) => (db2, tx1, .error e, none)
      | (db2, tx1, .ok _) =>
        match NotifTx.Commit env.commitErr db2 tx1 with
        | (db3, .error e) => (db3, tx1, .error ("failed to commit transaction: " ++ e), some e)
        | (db3, .ok _) => (db3, tx1, .ok (), none)
    match body with
    | (db4, tx1, result, some _) => ((NotifTx.Rollback env.rollbackErr db4 tx1).1, result)
    | (db4, _, result, none) => (db4, result)

/-- First loop of `getPetNameMap`: the pet IDs without repetition, `petIDs` being the
slice built so far. -/
def NotificationBatchService.collectPetIDs :
    List Notification → List String → Except String (List String)
  | [], petIDs => .ok petIDs
  | notification :: rest, petIDs =>
    match notification.Data with
    | AnyData.value _ => .error "invalid notification data format"
    | AnyData.map data =>
      match data.lookup "pet_id" with
      | some (DataValue.str petID) =>
        if petIDs.contains petID then NotificationBatchService.collectPetIDs rest petIDs
        else NotificationBatchService.collectPetIDs rest (petIDs ++ [petID])
      | _ => .error "pet_id is not a string"

/-- Second loop of `getPetNameMap`: one `GetNameByID` per collected pet ID; the map is a
list of pairs looked up from the front, an assignment putting its pair in front. -/
def NotificationBatchService.lookupPetNames (env : NotifEnv) :
    List String → NotifDB → List (String × String) →
      NotifDB × Except String (List (String × String))
  | [], db, petNameMap => (db, .ok petNameMap)
  | petID :: rest, db, petNameMap =>
    match PetRepositoryImpl.GetNameByID env db petID with
    | (db1, .error e) => (db1, .error e)
    | (db1, .ok petName) =>
      NotificationBatchService.lookupPetNames env rest db1 ((petID, petName) :: petNameMap)

/-- `NotificationBatchService.getPetNameMap`. -/
def NotificationBatchService.getPetNameMap (env : NotifEnv) (db : NotifDB)
    (notifications : List Notification) : NotifDB × Except String (List (String × String)) :=
  match NotificationBatchService.collectPetIDs notifications [] with
  | .error e => (db, .error e)
  | .ok petIDs => NotificationBatchService.lookupPetNames env petIDs db []

/-- The conversion loop of `Run`: the records, or the first error or panic. -/
def NotificationBatchService.convertAll (parseRFC3339 : String → Option Nat)
    (formatMinute : Nat → String) (petNameMap : List (String × String)) :
    List Notification → Outcome (List NotificationRecord)
  | [] => Outcome.ok []
  | notification :: rest =>
    match ToNotificationRecord parseRFC3339 formatMinute notification petNameMap with
    | Outcome.error e => Outcome.error e
    | Outcome.panicked => Outcome.panicked
    | Outcome.ok record =>
      match NotificationBatchService.convertAll parseRFC3339 formatMinute petNameMap rest with
      | Outcome.error e => Outcome.error e
      | Outcome.panicked => Outcome.panicked
      | Outcome.ok records => Outcome.ok (record :: records)

/-- `NotificationBatchService.Run`, for the notifications set by `SetArgs`. -/
def NotificationBatchService.Run (env : NotifEnv) (parseRFC3339 : String → Option Nat)
    (formatMinute : Nat → String) (db : NotifDB) (notifications : List Notification) :
    NotifDB × Outcome Unit :=
  match NotificationBatchService.getPetNameMap env db notifications with
  | (db1, .error e) => (db1, Outcome.error e)
  | (db1, .ok petNameMap) =>
    match NotificationBatchService.convertAll parseRFC3339 formatMinute petNameMap
        notifications with
    | Outcome.error e => (db1, Outcome.error e)
    | Outcome.panicked => (db1, Outcome.panicked)
    | Outcome.ok records =>
      match NotificationRepositoryImpl.CreateNotifications env db1 records with
      | (db2, .error e) => (db2, Outcome.error ("failed to create notifications: " ++ e))
      | (db2, .ok _) => (db2, Outcome.ok ())

/-- The `data` object of one element of the task-token payload, as decoded. -/
structure TokenData where
  UserID : String
  DateTime : Nat
  PetID : String
deriving DecidableEq, Repr

/-- One element of the `notifications` array of the task-token payload, as decoded
(`Type_` is its field `Type`). -/
structure TokenNotification where
  Type_ : String
  CreatedAt : Nat
  Data : TokenData
deriving DecidableEq, Repr

/-- The anonymous struct `input` the task token is decoded into. -/
structure TokenInput where
  Notifications : List TokenNotification
deriving DecidableEq, Repr

/-- `generateNotificationsFromTaskToken`; `unmarshal` stands for `json.Unmarshal` of the
token into `input`. -/
def generateNotificationsFromTaskToken (unmarshal : String → Except String TokenInput)
    (taskToken : String) : Except String (List Notification) :=
  match unmarshal taskToken with
  | .error e => .error ("failed to parse task token: " ++ e)
  | .ok input =>
    .ok (input.Notifications.map (fun notification =>
      NewReservationNotification
        { UserID := notification.Data.UserID
          DateTime := notification.Data.DateTime
          PetID := notification.Data.PetID
          CreatedAt := notification.CreatedAt }))

/-! ## Predicates and sample data used in the statements -/

/-- Whether processing one item gets through to a successful commit: no driver
call fails and the update matches at least one row. -/
def itemCommits (e : ItemEnv) (rows : List Reservation) (reservation : Reservation) : Bool :=
  !e.beginErr && !e.checkErr && !e.execErr && !e.rowsAffectedErr && !e.commitErr &&
    rows.any (fun r => decide (r.ReservationID = reservation.ReservationID))

/-- Status the loop body writes for an item, given the committed rows at its check. -/
def resolvedStatus (e : ItemEnv) (rows : List Reservation) (reservation : Reservation) : String :=
  if rows.any (futureConfirmed e.dbNow reservation.PetID) then "cancelled" else "confirmed"

/-- Columns no statement of the batch writes: everything but status and `updated_at`. -/
def frame (r : Reservation) : Int × String × String × String × Nat × String × Nat :=
  (r.ReservationID, r.UserID, r.UserName, r.Email, r.ReservationDateTime, r.PetID, r.CreatedAt)

/-- Reservation IDs are unique in the table. -/
def UniqueIDs (rows : List Reservation) : Prop :=
  (rows.map (fun r => r.ReservationID)).Nodup

instance (rows : List Reservation) : Decidable (UniqueIDs rows) :=
  inferInstanceAs (Decidable (List.Nodup _))

/-- Conflict invariant at instant `now`: every resource has at most one row that
is confirmed with a scheduled time later than `now`. -/
def ConflictFree (now : Nat) (rows : List Reservation) : Prop :=
  ∀ petID : String, rows.countP (futureConfirmed now petID) ≤ 1

/-- The backlog copy `r` names the pet of every table row that has its ID. -/
def AgreesOn (rows : List Reservation) (r : Reservation) : Prop :=
  ∀ x ∈ rows, x.ReservationID = r.ReservationID → x.PetID = r.PetID

/-- Backlog read by `GetReservationsByStatus` when the read succeeds. -/
def backlog (rows : List Reservation) (status : String) : List Reservation :=
  (rows.filter (fun r => r.Status = status)).insertionSort byDateTime

/-- Table of the examples: two pending rows for pet A, a confirmed and a pending row for pet B. -/
def sampleRows : List Reservation :=
  [pendingRow 2 "u2" "A" 20, pendingRow 1 "u1" "A" 10,
    { pendingRow 3 "u3" "B" 15 with Status := "confirmed" }, pendingRow 4 "u4" "B" 30]

/-- No driver call made for the item returns an error. -/
def noFailure (e : ItemEnv) : Bool :=
  !e.beginErr && !e.checkErr && !e.execErr && !e.rowsAffectedErr && !e.commitErr

instance : IsTotal Reservation byDateTime :=
  ⟨fun a b => Nat.le_total a.ReservationDateTime b.ReservationDateTime⟩

instance : IsTrans Reservation byDateTime :=
  ⟨fun _ _ _ hab hbc => Nat.le_trans hab hbc⟩

/-- Events of the backlog items none of whose driver calls fails, in backlog order. -/
def committedEvents (item : Nat → ItemEnv) (rs : List Reservation) : List ReservationEvent :=
  (rs.enum.filter (fun p => noFailure (item p.1))).map (fun p => eventOf p.2)

/-- Three pending rows for three pets. -/
def threePending : List Reservation :=
  [pendingRow 1 "u1" "pet1" 10, pendingRow 2 "u2" "pet2" 20, pendingRow 3 "u3" "pet3" 30]

/-- Non-local reporter world with token `tok` in which only `SendTaskSuccess` may fail. -/
def sfnWorld (sendSuccessErr : Bool) : SfnEnv :=
  { envLocal := false, clientNil := false, taskToken := "tok", jsonTimeOk := fun _ => true,
    sendSuccessErr := sendSuccessErr, sendFailureErr := false }

/-- The string under `pet_id` of a notification whose `Data` is a map, if any. -/
def petIDOf (n : Notification) : Option String :=
  match n.Data with
  | AnyData.map data =>
    match data.lookup "pet_id" with
    | some (DataValue.str petID) => some petID
    | _ => none
  | AnyData.value _ => none

/-- Whether an entry of the log begins a transaction. -/
def Op.isBegin : Op → Bool
  | Op.beginTx _ => true
  | _ => false

/-- Whether an entry of the log is the `UPDATE` of `UpdateStatus`. -/
def Op.isUpdate : Op → Bool
  | Op.update _ _ _ => true
  | _ => false

/-- The logs one backlog item can leave: nothing (no transaction begun), or one
transaction with the existence check, at most one update on its handle, and its end
by `Rollback` or by `Commit` (which ends the transaction also when it returns an
error). -/
inductive ItemLog : List Op → Prop where
  | notBegun : ItemLog []
  | checkFailed (n : Nat) (h : Handle) (petID : String) :
    ItemLog [Op.beginTx n, Op.selectExists h petID, Op.rollback n]
  | updateFailed (n : Nat) (h : Handle) (petID : String) (id : Int) (status : String) :
    ItemLog [Op.beginTx n, Op.selectExists h petID, Op.update (Handle.tx n) id status,
      Op.rollback n]
  | commitCalled (n : Nat) (h : Handle) (petID : String) (id : Int) (status : String)
      (ok : Bool) :
    ItemLog [Op.beginTx n, Op.selectExists h petID, Op.update (Handle.tx n) id status,
      Op.commit n ok]

/-- Log one backlog item leaves, read off the failure flags of its world. -/
def itemLogOf (e : ItemEnv) (db : DB) (r : Reservation) : List Op :=
  if e.beginErr then []
  else if e.checkErr then
    [Op.beginTx db.txCount, Op.selectExists Handle.pool r.PetID, Op.rollback db.txCount]
  else if e.execErr || e.rowsAffectedErr ||
      !db.rows.any (fun x => decide (x.ReservationID = r.ReservationID)) then
    [Op.beginTx db.txCount, Op.selectExists Handle.pool r.PetID,
      Op.update (Handle.tx db.txCount) r.ReservationID (resolvedStatus e db.rows r),
      Op.rollback db.txCount]
  else
    [Op.beginTx db.txCount, Op.selectExists Handle.pool r.PetID,
      Op.update (Handle.tx db.txCount) r.ReservationID (resolvedStatus e db.rows r),
      Op.commit db.txCount (!e.commitErr)]

/-- Scan of a log for the discipline of transactions, `cur` being the transaction open
so far: no `BEGIN` while one is open, `Commit`, `Rollback` and `UPDATE` only on the open
one, and none open at the end. -/
def txScan : List Op → Option Nat → Bool
  | [], cur => cur.isNone
  | Op.beginTx n :: rest, none => txScan rest (some n)
  | Op.beginTx _ :: _, some _ => false
  | Op.commit n _ :: rest, some m => n == m && txScan rest none
  | Op.commit _ _ :: _, none => false
  | Op.rollback n :: rest, some m => n == m && txScan rest none
  | Op.rollback _ :: _, none => false
  | Op.update (Handle.tx n) _ _ :: rest, some m => n == m && txScan rest (some m)
  | Op.update _ _ _ :: _, _ => false
  | Op.selectByStatus _ _ :: rest, cur => txScan rest cur
  | Op.selectExists _ _ :: rest, cur => txScan rest cur

/-- World of the notification batch in which every pet is called "TestPet" and only the
`INSERT` of the records whose index satisfies `failAt` fails. -/
def notifWorld (failAt : Nat → Bool) : NotifEnv :=
  { getName := fun _ => .ok "TestPet", beginErr := false, createErr := failAt,
    commitErr := false, rollbackErr := false }

/-- Empty notification database. -/
def emptyNotifDB : NotifDB :=
  { rows := [], txCount := 0, log := [], lookups := [], creates := [] }

/-- Record of the examples, for user `u`. -/
def sampleRecord (u : String) : NotificationRecord :=
  { ID := 0, UserID := u, Title := "予約が完了しました", Message := "m", IsRead := false,
    Type_ := "reservation", CreatedAt := 3, UpdatedAt := 3 }

/-- Reservation notification of the examples, for user `u` and pet `p`. -/
def sampleNotification (u p : String) : Notification :=
  { Type_ := "reservation", CreatedAt := 3, Data := AnyData.map [("user_id", DataValue.str u),
      ("pet_id", DataValue.str p), ("date_time", DataValue.str "T")] }

/-- Task token of the examples: a payload with one element of type `common`. -/
def commonToken : String :=
  "\x7b\"notifications\":[\x7b\"type\":\"common\",\"created_at\":\"2024-01-01T00:00:00Z\"," ++
    "\"data\":\x7b\"user_id\":\"u\",\"date_time\":\"2024-01-02T00:00:00Z\",\"pet_id\":\"p\"\x7d\x7d]\x7d"

/-- What `json.Unmarshal` gives on `commonToken` (the two instants being 1 and 2); any
other text is taken as rejected. -/
def sampleUnmarshal (taskToken : String) : Except String TokenInput :=
  if taskToken = commonToken then
    .ok { Notifications := [{ Type_ := "common", CreatedAt := 1, Data := { UserID := "u", DateTime := 2, PetID := "p" } }] }
  else .error "invalid character"

/-- The slice `petIDs` after one more pet ID: appended unless already there. -/
def addPetID (petIDs : List String) (petID : String) : List String :=
  if petIDs.contains petID then petIDs else petIDs ++ [petID]

/-! ## Lemmas and theorems -/

theorem filter_length_eq_zero_iff_any (rows : List Reservation) (k : Int) :
    ((rows.filter (fun r => r.ReservationID = k)).length = 0) ↔
      rows.any (fun r => decide (r.ReservationID = k)) = false := by
  induction rows with
  | nil => simp
  | cons a t ih =>
    by_cases h : a.ReservationID = k <;> simp [List.filter_cons, h]

theorem processReservation_commit (e : ItemEnv) (db : DB) (r : Reservation)
    (h : itemCommits e db.rows r = true) :
    (processReservation e db r).1.rows =
        db.rows.map (applyWrite ⟨r.ReservationID, resolvedStatus e db.rows r, e.appNow⟩) ∧
      (processReservation e db r).2 = some (eventOf r) := by
  simp only [itemCommits, Bool.and_eq_true, Bool.not_eq_true'] at h
  obtain ⟨⟨⟨⟨⟨h1, h2⟩, h3⟩, h4⟩, h5⟩, h6⟩ := h
  have h7 : ¬ ((db.rows.filter (fun x => x.ReservationID = r.ReservationID)).length = 0) := by
    rw [filter_length_eq_zero_iff_any]; simp [h6]
  cases hex : db.rows.any (futureConfirmed e.dbNow r.PetID) <;>
    simp [processReservation, BeginTx, CheckExistingReservation, UpdateStatus, Commit,
      h1, h2, h3, h4, h5, h7, applyWrites, resolvedStatus, hex]

theorem processReservation_skip (e : ItemEnv) (db : DB) (r : Reservation)
    (h : itemCommits e db.rows r = false) :
    (processReservation e db r).1.rows = db.rows ∧ (processReservation e db r).2 = none := by
  unfold processReservation BeginTx
  cases h1 : e.beginErr
  · unfold CheckExistingReservation
    cases h2 : e.checkErr
    · unfold UpdateStatus
      cases hex : db.rows.any (futureConfirmed e.dbNow r.PetID) <;>
      cases h3 : e.execErr
      all_goals first
        | (simp [Rollback, hex]; done)
        | skip
      all_goals cases h4 : e.rowsAffectedErr
      all_goals first
        | (simp [Rollback, hex]; done)
        | skip
      all_goals
        by_cases h7 : (db.rows.filter (fun x => x.ReservationID = r.ReservationID)).length = 0
      all_goals first
        | (simp [h7, Rollback, applyWrites, hex]; done)
        | skip
      all_goals cases h5 : e.commitErr
      all_goals first
        | (simp [h7, Commit, applyWrites, h5, hex]; done)
        | skip
      all_goals
        exfalso
        rw [filter_length_eq_zero_iff_any] at h7
        simp [itemCommits, h1, h2, h3, h4, h5] at h
        simp at h7
        obtain ⟨x, hx, hx2⟩ := h7
        exact h x hx hx2
    · simp [Rollback]
  · simp

theorem applyWrite_frame (w : Write) (r : Reservation) : frame (applyWrite w r) = frame r := by
  unfold applyWrite; split <;> rfl

theorem applyWrite_id (w : Write) (r : Reservation) :
    (applyWrite w r).ReservationID = r.ReservationID := by
  unfold applyWrite; split <;> rfl

theorem applyWrite_pet (w : Write) (r : Reservation) :
    (applyWrite w r).PetID = r.PetID := by
  unfold applyWrite; split <;> rfl

theorem applyWrite_time (w : Write) (r : Reservation) :
    (applyWrite w r).ReservationDateTime = r.ReservationDateTime := by
  unfold applyWrite; split <;> rfl

theorem processReservation_rows (e : ItemEnv) (db : DB) (r : Reservation) :
    ((processReservation e db r).1.rows = db.rows ∧ (processReservation e db r).2 = none ∧
        itemCommits e db.rows r = false) ∨
      ((processReservation e db r).1.rows =
          db.rows.map (applyWrite ⟨r.ReservationID, resolvedStatus e db.rows r, e.appNow⟩) ∧
        (processReservation e db r).2 = some (eventOf r) ∧ itemCommits e db.rows r = true) := by
  cases h : itemCommits e db.rows r
  · exact Or.inl ⟨(processReservation_skip e db r h).1, (processReservation_skip e db r h).2, rfl⟩
  · exact Or.inr ⟨(processReservation_commit e db r h).1, (processReservation_commit e db r h).2, rfl⟩

theorem processReservation_frame (e : ItemEnv) (db : DB) (r : Reservation) :
    (processReservation e db r).1.rows.map frame = db.rows.map frame := by
  rcases processReservation_rows e db r with ⟨h, _, _⟩ | ⟨h, _, _⟩
  · rw [h]
  · rw [h, List.map_map]
    apply List.map_congr_left
    intro a _
    exact applyWrite_frame _ a

theorem processLoop_frame (item : Nat → ItemEnv) (rs : List Reservation) :
    ∀ (i : Nat) (db : DB) (events : List ReservationEvent),
      (processLoop item i rs db events).1.rows.map frame = db.rows.map frame := by
  induction rs with
  | nil => intro i db events; rfl
  | cons r rest ih =>
    intro i db events
    have hf := processReservation_frame (item i) db r
    unfold processLoop
    split
    · next db1 ev heq => rw [ih]; rw [heq] at hf; exact hf
    · next db1 heq => rw [ih]; rw [heq] at hf; exact hf

theorem ids_of_frame {a b : List Reservation} (h : a.map frame = b.map frame) :
    a.map (fun r => r.ReservationID) = b.map (fun r => r.ReservationID) := by
  have : ∀ l : List Reservation, l.map (fun r => r.ReservationID) = (l.map frame).map Prod.fst := by
    intro l; rw [List.map_map]; rfl
  rw [this a, this b, h]

theorem ConflictFree.mono {now later : Nat} {rows : List Reservation}
    (h : ConflictFree now rows) (hle : now ≤ later) : ConflictFree later rows := by
  intro petID
  refine le_trans (List.countP_mono_left ?_) (h petID)
  intro x _ hx
  simp only [futureConfirmed, Bool.and_eq_true, decide_eq_true_eq] at hx ⊢
  exact ⟨hx.1, lt_of_le_of_lt hle hx.2⟩

theorem countP_id_le_one {rows : List Reservation} (h : UniqueIDs rows) (k : Int) :
    rows.countP (fun r => decide (r.ReservationID = k)) ≤ 1 := by
  have h1 : rows.countP (fun r => decide (r.ReservationID = k)) =
      (rows.map (fun r => r.ReservationID)).count k := by
    rw [List.count, List.countP_map]
    apply List.countP_congr
    intro x _
    simp [Function.comp]
  rw [h1]
  exact List.nodup_iff_count_le_one.mp h k

theorem agreesOn_of_frame {a b : List Reservation} (h : a.map frame = b.map frame)
    {r : Reservation} (hb : AgreesOn b r) : AgreesOn a r := by
  intro x hx hid
  have hm : frame x ∈ b.map frame := by rw [← h]; exact List.mem_map_of_mem _ hx
  obtain ⟨y, hy, hfy⟩ := List.mem_map.mp hm
  have e1 : y.ReservationID = x.ReservationID := congrArg Prod.fst hfy
  have e2 : y.PetID = x.PetID := congrArg (fun t => t.2.2.2.2.2.1) hfy
  rw [← e2]
  exact hb y hy (e1.trans hid)

theorem agreesOn_of_mem {rows : List Reservation} (h : UniqueIDs rows) {r : Reservation}
    (hr : r ∈ rows) : AgreesOn rows r := by
  intro x hx hid
  have := List.inj_on_of_nodup_map h hx hr hid
  rw [this]

theorem processReservation_conflictFree (e : ItemEnv) (db : DB) (r : Reservation)
    (hu : UniqueIDs db.rows) (ha : AgreesOn db.rows r) (hc : ConflictFree e.dbNow db.rows) :
    ConflictFree e.dbNow (processReservation e db r).1.rows := by
  rcases processReservation_rows e db r with ⟨h, _, _⟩ | ⟨h, _, _⟩
  · rw [h]; exact hc
  · rw [h]
    intro petID
    rw [List.countP_map]
    by_cases hex : db.rows.any (futureConfirmed e.dbNow r.PetID) = true
    · -- the item is cancelled: no row becomes confirmed
      refine le_trans (List.countP_mono_left ?_) (hc petID)
      intro x _ hx
      simp only [Function.comp, futureConfirmed, applyWrite, resolvedStatus, hex, if_true,
        Bool.and_eq_true, decide_eq_true_eq] at hx ⊢
      by_cases hid : x.ReservationID = r.ReservationID
      · simp [hid] at hx
      · simpa [hid] using hx
    · -- the item is confirmed: no confirmed future row of its pet existed
      have hnone : ∀ x ∈ db.rows, futureConfirmed e.dbNow r.PetID x = false := by
        intro x hx
        by_contra hcon
        exact hex (List.any_eq_true.mpr ⟨x, hx, by simpa using hcon⟩)
      by_cases hp : petID = r.PetID
      · refine le_trans (List.countP_mono_left ?_) (countP_id_le_one hu r.ReservationID)
        intro x hx hfx
        by_cases hid : x.ReservationID = r.ReservationID
        · simp [hid]
        · exfalso
          have h0 := hnone x hx
          simp only [Function.comp, applyWrite] at hfx
          rw [if_neg hid, hp, h0] at hfx
          exact Bool.false_ne_true hfx
      · refine le_trans (List.countP_mono_left ?_) (hc petID)
        intro x hx hfx
        by_cases hid : x.ReservationID = r.ReservationID
        · exfalso
          have hpet : (applyWrite ⟨r.ReservationID, resolvedStatus e db.rows r, e.appNow⟩ x).PetID
              = r.PetID := by rw [applyWrite_pet]; exact ha x hx hid
          simp only [Function.comp, futureConfirmed, Bool.and_eq_true, decide_eq_true_eq] at hfx
          exact hp (hfx.1.1.symm.trans hpet)
        · simpa [Function.comp, applyWrite, hid] using hfx

theorem processReservation_uniqueIDs (e : ItemEnv) (db : DB) (r : Reservation)
    (hu : UniqueIDs db.rows) : UniqueIDs (processReservation e db r).1.rows := by
  unfold UniqueIDs at *
  rw [ids_of_frame (processReservation_frame e db r)]; exact hu

theorem processLoop_conflictFree (item : Nat → ItemEnv) (rs : List Reservation) :
    ∀ (i : Nat) (db : DB) (events : List ReservationEvent) (t0 tEnd : Nat),
      UniqueIDs db.rows → (∀ r ∈ rs, AgreesOn db.rows r) → ConflictFree t0 db.rows →
      (∀ j, i ≤ j → t0 ≤ (item j).dbNow) →
      (∀ j k, j ≤ k → (item j).dbNow ≤ (item k).dbNow) →
      (∀ j, (item j).dbNow ≤ tEnd) → t0 ≤ tEnd →
      ConflictFree tEnd (processLoop item i rs db events).1.rows := by
  induction rs with
  | nil =>
    intro i db events t0 tEnd _ _ hc _ _ _ hle
    exact hc.mono hle
  | cons r rest ih =>
    intro i db events t0 tEnd hu ha hc h0 hmono hend hle
    have hstep := processReservation_conflictFree (item i) db r hu
      (ha r (List.mem_cons_self _ _)) (hc.mono (h0 i (le_refl i)))
    have hu1 := processReservation_uniqueIDs (item i) db r hu
    have ha1 : ∀ x ∈ rest, AgreesOn (processReservation (item i) db r).1.rows x := by
      intro x hx
      exact agreesOn_of_frame (processReservation_frame (item i) db r)
        (ha x (List.mem_cons_of_mem _ hx))
    have hnext : ∀ j, i + 1 ≤ j → (item i).dbNow ≤ (item j).dbNow := by
      intro j hj; exact hmono i j (by omega)
    unfold processLoop
    split
    · next db1 ev heq =>
      rw [heq] at hstep hu1 ha1
      exact ih (i + 1) db1 _ (item i).dbNow tEnd hu1 ha1 hstep hnext hmono hend (hend i)
    · next db1 heq =>
      rw [heq] at hstep hu1 ha1
      exact ih (i + 1) db1 _ (item i).dbNow tEnd hu1 ha1 hstep hnext hmono hend (hend i)

theorem mem_backlog {rows : List Reservation} {status : String} {r : Reservation} :
    r ∈ backlog rows status ↔ r ∈ rows ∧ r.Status = status := by
  unfold backlog
  rw [(List.perm_insertionSort byDateTime _).mem_iff, List.mem_filter]
  simp

theorem processReservationsByStatus_ok (env : Env) (db : DB) (status : String)
    (h : env.fetchErr = false) :
    processReservationsByStatus env db status =
      ((processLoop env.item 0 (backlog db.rows status)
          { db with log := db.log ++ [Op.selectByStatus Handle.pool status] } []).1,
        .ok (processLoop env.item 0 (backlog db.rows status)
          { db with log := db.log ++ [Op.selectByStatus Handle.pool status] } []).2) := by
  simp [processReservationsByStatus, GetReservationsByStatus, h, backlog]

theorem processReservationsByStatus_err (env : Env) (db : DB) (status : String)
    (h : env.fetchErr = true) :
    processReservationsByStatus env db status =
      ({ db with log := db.log ++ [Op.selectByStatus Handle.pool status] },
        .error ("failed to get reservations with status " ++ status ++ ": " ++
          ("failed to query reservations with status " ++ status))) := by
  simp [processReservationsByStatus, GetReservationsByStatus, h]

/-- C1. Conflict invariant preserved by a run: if reservation IDs are unique and at
instant `t0` every resource has at most one confirmed row scheduled later than `t0`,
then for every failure pattern (initial read included), with a database clock that
never runs backwards from `t0` to the instant `tEnd` at which the call returns, every
resource has at most one confirmed row scheduled later than `tEnd` after
`processReservationsByStatus("pending")`. -/
theorem conflict_invariant_preserved (env : Env) (db : DB) (t0 tEnd : Nat)
    (hu : UniqueIDs db.rows) (hc : ConflictFree t0 db.rows)
    (hstart : ∀ j, t0 ≤ (env.item j).dbNow)
    (hmono : ∀ j k, j ≤ k → (env.item j).dbNow ≤ (env.item k).dbNow)
    (hend : ∀ j, (env.item j).dbNow ≤ tEnd) :
    ConflictFree tEnd (processReservationsByStatus env db "pending").1.rows := by
  have hle : t0 ≤ tEnd := le_trans (hstart 0) (hend 0)
  cases hf : env.fetchErr
  · rw [processReservationsByStatus_ok env db "pending" hf]
    refine processLoop_conflictFree env.item _ 0 _ [] t0 tEnd hu ?_ hc (fun j _ => hstart j)
      hmono hend hle
    intro r hr
    exact agreesOn_of_mem hu (mem_backlog.mp hr).1
  · rw [processReservationsByStatus_err env db "pending" hf]
    exact hc.mono hle

theorem sampleRows_conflictFree : ConflictFree 5 sampleRows := by
  intro petID
  simp only [sampleRows, pendingRow, List.countP_cons, List.countP_nil, futureConfirmed]
  by_cases h : "B" = petID <;> simp [h]

/-- Instance of C1: the sample table (unique IDs, conflict-free at 5), clock going from 5
to 7, the second item failing at commit; the table is conflict-free at 9 afterwards. -/
theorem conflict_invariant_preserved_witness :
    UniqueIDs sampleRows ∧ ConflictFree 5 sampleRows ∧
      ConflictFree 9
        (processReservationsByStatus
          ⟨false, fun j => { calm (5 + min j 2) with commitErr := decide (j = 1) }⟩
          ⟨sampleRows, 0, []⟩ "pending").1.rows :=
  ⟨by decide, sampleRows_conflictFree,
    conflict_invariant_preserved _ ⟨sampleRows, 0, []⟩ 5 9 (by decide) sampleRows_conflictFree
      (fun j => by simp [calm]) (fun j k h => by simp [calm]; omega)
      (fun j => by simp [calm]; omega)⟩

theorem itemCommits_eq (e : ItemEnv) (rows : List Reservation) (r : Reservation)
    (h : r.ReservationID ∈ rows.map (fun x => x.ReservationID)) :
    itemCommits e rows r = noFailure e := by
  have : rows.any (fun x => decide (x.ReservationID = r.ReservationID)) = true := by
    obtain ⟨x, hx, hid⟩ := List.mem_map.mp h
    exact List.any_eq_true.mpr ⟨x, hx, by simpa using hid⟩
  simp [itemCommits, noFailure, this]

theorem processLoop_append (item : Nat → ItemEnv) (l1 l2 : List Reservation) :
    ∀ (i : Nat) (db : DB) (events : List ReservationEvent),
      processLoop item i (l1 ++ l2) db events =
        processLoop item (i + l1.length) l2 (processLoop item i l1 db events).1
          (processLoop item i l1 db events).2 := by
  induction l1 with
  | nil => intro i db events; simp [processLoop]
  | cons r rest ih =>
    intro i db events
    simp only [List.cons_append, List.length_cons]
    have hidx : i + (rest.length + 1) = i + 1 + rest.length := by omega
    rw [hidx]
    rw [processLoop]
    conv => rhs; rw [processLoop]
    split <;> rw [ih]

theorem processLoop_uniqueIDs (item : Nat → ItemEnv) (rs : List Reservation) (i : Nat) (db : DB)
    (events : List ReservationEvent) (hu : UniqueIDs db.rows) :
    UniqueIDs (processLoop item i rs db events).1.rows := by
  unfold UniqueIDs at *
  rw [ids_of_frame (processLoop_frame item rs i db events)]; exact hu

theorem processReservation_mem_of_id_ne (e : ItemEnv) (db : DB) (r row : Reservation)
    (hrow : row ∈ db.rows)
    (hne : r.ReservationID ≠ row.ReservationID ∨ itemCommits e db.rows r = false) :
    row ∈ (processReservation e db r).1.rows := by
  rcases processReservation_rows e db r with ⟨h, _, _⟩ | ⟨h, _, hc⟩
  · rw [h]; exact hrow
  · rw [h]
    rcases hne with hne | hne
    · refine List.mem_map.mpr ⟨row, hrow, ?_⟩
      unfold applyWrite
      rw [if_neg (fun h => hne h.symm)]
    · rw [hc] at hne; exact absurd hne (by decide)

theorem processLoop_mem_of_id_ne (item : Nat → ItemEnv) (row : Reservation)
    (rs : List Reservation) :
    ∀ (i : Nat) (db : DB) (events : List ReservationEvent),
      row ∈ db.rows → (∀ r ∈ rs, r.ReservationID ≠ row.ReservationID) →
      row ∈ (processLoop item i rs db events).1.rows := by
  induction rs with
  | nil => intro i db events hrow _; exact hrow
  | cons r rest ih =>
    intro i db events hrow hne
    have h1 := processReservation_mem_of_id_ne (item i) db r row hrow
      (Or.inl (hne r (List.mem_cons_self _ _)))
    unfold processLoop
    split
    · next db1 ev heq =>
      rw [heq] at h1; exact ih _ _ _ h1 (fun x hx => hne x (List.mem_cons_of_mem _ hx))
    · next db1 heq =>
      rw [heq] at h1; exact ih _ _ _ h1 (fun x hx => hne x (List.mem_cons_of_mem _ hx))

theorem eq_of_mem_of_id_eq {rows : List Reservation} (hu : UniqueIDs rows) {x y : Reservation}
    (hx : x ∈ rows) (hy : y ∈ rows) (hid : x.ReservationID = y.ReservationID) : x = y :=
  List.inj_on_of_nodup_map hu hx hy hid

theorem exists_of_frame {a b : List Reservation} (h : a.map frame = b.map frame)
    {x : Reservation} (hx : x ∈ a) : ∃ y ∈ b, frame y = frame x := by
  have hm : frame x ∈ b.map frame := by rw [← h]; exact List.mem_map_of_mem _ hx
  exact List.mem_map.mp hm

theorem backlog_sorted (rows : List Reservation) (status : String) :
    (backlog rows status).Pairwise byDateTime :=
  List.sorted_insertionSort byDateTime _

theorem backlog_uniqueIDs {rows : List Reservation} (hu : UniqueIDs rows) (status : String) :
    UniqueIDs (backlog rows status) := by
  unfold UniqueIDs backlog at *
  have hp := (List.perm_insertionSort byDateTime
    (rows.filter (fun r => r.Status = status))).map (fun r => r.ReservationID)
  rw [hp.nodup_iff]
  exact hu.sublist ((List.filter_sublist _).map _)

theorem processReservation_commit_mem (e : ItemEnv) (db : DB) (r row : Reservation)
    (hok : noFailure e = true) (hr : r.ReservationID ∈ db.rows.map (fun x => x.ReservationID))
    (hrow : row ∈ db.rows) :
    applyWrite ⟨r.ReservationID, resolvedStatus e db.rows r, e.appNow⟩ row ∈
      (processReservation e db r).1.rows := by
  have hc : itemCommits e db.rows r = true := by rw [itemCommits_eq e db.rows r hr]; exact hok
  rw [(processReservation_commit e db r hc).1]
  exact List.mem_map_of_mem _ hrow

/-- C2. Earlier wins: when the table has unique IDs, its only rows for resource `petA`
are the pending rows `R1` and `R2` with scheduled times `t1 < t2`, every reading of the
database clock is before `t1`, and no store operation fails, then after one
`processReservationsByStatus("pending")` the row of `R1` is `R1` with status confirmed
and the row of `R2` is `R2` with status cancelled (only `updated_at` changed besides). -/
theorem earlier_wins (env : Env) (db : DB) (petA : String) (R1 R2 : Reservation)
    (hu : UniqueIDs db.rows) (h1 : R1 ∈ db.rows) (h2 : R2 ∈ db.rows)
    (hA1 : R1.PetID = petA) (hA2 : R2.PetID = petA)
    (honly : ∀ x ∈ db.rows, x.PetID = petA → x = R1 ∨ x = R2)
    (hp1 : R1.Status = "pending") (hp2 : R2.Status = "pending")
    (ht : R1.ReservationDateTime < R2.ReservationDateTime)
    (hnow : ∀ j, (env.item j).dbNow < R1.ReservationDateTime)
    (hfetch : env.fetchErr = false) (hok : ∀ j, noFailure (env.item j) = true) :
    ∃ u1 u2 : Nat,
      { R1 with Status := "confirmed", UpdatedAt := u1 } ∈
          (processReservationsByStatus env db "pending").1.rows ∧
        { R2 with Status := "cancelled", UpdatedAt := u2 } ∈
          (processReservationsByStatus env db "pending").1.rows ∧
        UniqueIDs (processReservationsByStatus env db "pending").1.rows := by
  rw [processReservationsByStatus_ok env db "pending" hfetch]
  have hne : R1 ≠ R2 := fun h => by rw [h] at ht; exact lt_irrefl _ ht
  have hb1 : R1 ∈ backlog db.rows "pending" := mem_backlog.mpr ⟨h1, hp1⟩
  have hb2 : R2 ∈ backlog db.rows "pending" := mem_backlog.mpr ⟨h2, hp2⟩
  have hsorted := backlog_sorted db.rows "pending"
  have hbu : (backlog db.rows "pending").Pairwise
      (fun a b => a.ReservationID ≠ b.ReservationID) := by
    have := backlog_uniqueIDs hu "pending"
    unfold UniqueIDs List.Nodup at this
    exact List.pairwise_map.mp this
  -- cut the backlog at R1 and at R2
  obtain ⟨l1, t, hcut1⟩ := List.append_of_mem hb1
  have h2t : R2 ∈ t := by
    rw [hcut1] at hb2 hsorted
    rcases List.mem_append.mp hb2 with hin | hin
    · exfalso
      have := (List.pairwise_append.mp hsorted).2.2 R2 hin R1 (List.mem_cons_self _ _)
      unfold byDateTime at this
      omega
    · rcases List.mem_cons.mp hin with heq | hin
      · exact absurd heq.symm hne
      · exact hin
  obtain ⟨l2, l3, hcut2⟩ := List.append_of_mem h2t
  rw [hcut1, hcut2] at hbu
  rw [hcut1, hcut2]
  have hP := List.pairwise_append.mp hbu
  have hP1 := List.pairwise_cons.mp hP.2.1
  have hP2 := List.pairwise_append.mp hP1.2
  have hP3 := List.pairwise_cons.mp hP2.2.1
  have hl1R1 : ∀ r ∈ l1, r.ReservationID ≠ R1.ReservationID :=
    fun r hr => hP.2.2 r hr R1 (List.mem_cons_self _ _)
  have hl1R2 : ∀ r ∈ l1, r.ReservationID ≠ R2.ReservationID :=
    fun r hr => hP.2.2 r hr R2
      (List.mem_cons_of_mem _ (List.mem_append_right _ (List.mem_cons_self _ _)))
  have hR12 : R1.ReservationID ≠ R2.ReservationID :=
    hP1.1 R2 (List.mem_append_right _ (List.mem_cons_self _ _))
  have hl2R1 : ∀ r ∈ l2, r.ReservationID ≠ R1.ReservationID :=
    fun r hr => (hP1.1 r (List.mem_append_left _ hr)).symm
  have hl2R2 : ∀ r ∈ l2, r.ReservationID ≠ R2.ReservationID :=
    fun r hr => hP2.2.2 r hr R2 (List.mem_cons_self _ _)
  have hl3R1 : ∀ r ∈ l3, r.ReservationID ≠ R1.ReservationID :=
    fun r hr => (hP1.1 r (List.mem_append_right _ (List.mem_cons_of_mem _ hr))).symm
  have hl3R2 : ∀ r ∈ l3, r.ReservationID ≠ R2.ReservationID :=
    fun r hr => (hP3.1 r hr).symm
  -- run the prefix
  generalize hdb0 : ({ db with log := db.log ++ [Op.selectByStatus Handle.pool "pending"] } : DB)
    = db0
  have hrows0 : db0.rows = db.rows := by rw [← hdb0]
  rw [processLoop_append]
  generalize hk : 0 + l1.length = k
  generalize hS1 : processLoop env.item 0 l1 db0 [] = S1
  have hf1 : S1.1.rows.map frame = db.rows.map frame := by
    rw [← hS1, processLoop_frame, hrows0]
  have hu1 : UniqueIDs S1.1.rows := by
    rw [← hS1]; exact processLoop_uniqueIDs _ _ _ _ _ (by rw [hrows0]; exact hu)
  have hR1S1 : R1 ∈ S1.1.rows := by
    rw [← hS1]; exact processLoop_mem_of_id_ne _ _ _ _ _ _ (by rw [hrows0]; exact h1) hl1R1
  have hR2S1 : R2 ∈ S1.1.rows := by
    rw [← hS1]; exact processLoop_mem_of_id_ne _ _ _ _ _ _ (by rw [hrows0]; exact h2) hl1R2
  -- the step of R1: nothing confirmed for the pet yet
  have hcheck1 : S1.1.rows.any (futureConfirmed (env.item k).dbNow R1.PetID)
      = false := by
    rw [List.any_eq_false]
    intro x hx hfx
    obtain ⟨y, hy, hfy⟩ := exists_of_frame hf1 hx
    have e1 : y.ReservationID = x.ReservationID := congrArg Prod.fst hfy
    have e2 : y.PetID = x.PetID := congrArg (fun t => t.2.2.2.2.2.1) hfy
    simp only [futureConfirmed, Bool.and_eq_true, decide_eq_true_eq] at hfx
    have hyA : y.PetID = petA := by rw [e2, hfx.1.1, hA1]
    rcases honly y hy hyA with hy1 | hy1
    · have : x = R1 := eq_of_mem_of_id_eq hu1 hx hR1S1 (by rw [← e1, hy1])
      rw [this, hp1] at hfx
      exact absurd hfx.1.2 (by decide)
    · have : x = R2 := eq_of_mem_of_id_eq hu1 hx hR2S1 (by rw [← e1, hy1])
      rw [this, hp2] at hfx
      exact absurd hfx.1.2 (by decide)
  have hst1 : resolvedStatus (env.item k) S1.1.rows R1 = "confirmed" := by
    simp [resolvedStatus, hcheck1]
  rw [processLoop]
  have hm1 := processReservation_commit_mem (env.item k) S1.1 R1 R1 (hok _)
    (List.mem_map_of_mem _ hR1S1) hR1S1
  have hm2 := processReservation_commit_mem (env.item k) S1.1 R1 R2 (hok _)
    (List.mem_map_of_mem _ hR1S1) hR2S1
  have hu1' := processReservation_uniqueIDs (env.item k) S1.1 R1 hu1
  rw [hst1] at hm1 hm2
  have ha1 : applyWrite ⟨R1.ReservationID, "confirmed", (env.item k).appNow⟩ R1 =
      { R1 with Status := "confirmed", UpdatedAt := (env.item k).appNow } := by
    simp [applyWrite]
  have ha2 : applyWrite ⟨R1.ReservationID, "confirmed", (env.item k).appNow⟩ R2 =
      R2 := by
    unfold applyWrite; rw [if_neg (fun h => hR12 h.symm)]
  rw [ha1] at hm1
  rw [ha2] at hm2
  obtain ⟨R1', hR1'⟩ : ∃ x : Reservation,
      { R1 with Status := "confirmed", UpdatedAt := (env.item k).appNow } = x := ⟨_, rfl⟩
  rw [hR1'] at hm1
  have hR1'id : R1'.ReservationID = R1.ReservationID := by rw [← hR1']
  have hR1'pet : R1'.PetID = petA := by rw [← hR1']; exact hA1
  have hR1'st : R1'.Status = "confirmed" := by rw [← hR1']
  have hR1't : R1'.ReservationDateTime = R1.ReservationDateTime := by rw [← hR1']
  refine ⟨(env.item k).appNow, ?_⟩
  rw [hR1']
  -- both branches of the loop continue from the same database
  have key : ∀ (S : DB) (ev : List ReservationEvent), R1' ∈ S.rows → R2 ∈ S.rows →
      UniqueIDs S.rows →
      ∃ u2 : Nat,
        R1' ∈ (processLoop env.item (k + 1) (l2 ++ R2 :: l3) S ev).1.rows ∧
        { R2 with Status := "cancelled", UpdatedAt := u2 } ∈
          (processLoop env.item (k + 1) (l2 ++ R2 :: l3) S ev).1.rows ∧
        UniqueIDs (processLoop env.item (k + 1) (l2 ++ R2 :: l3) S ev).1.rows := by
    intro S ev hS1' hS2' hSu
    rw [processLoop_append]
    generalize hS2 : processLoop env.item (k + 1) l2 S ev = S2
    have hu2 : UniqueIDs S2.1.rows := by rw [← hS2]; exact processLoop_uniqueIDs _ _ _ _ _ hSu
    have hR1S2 : R1' ∈ S2.1.rows := by
      rw [← hS2]
      exact processLoop_mem_of_id_ne _ _ _ _ _ _ hS1' (fun r hr => by rw [hR1'id]; exact hl2R1 r hr)
    have hR2S2 : R2 ∈ S2.1.rows := by
      rw [← hS2]; exact processLoop_mem_of_id_ne _ _ _ _ _ _ hS2' hl2R2
    generalize hj : k + 1 + l2.length = j
    have hcheck2 : S2.1.rows.any (futureConfirmed (env.item j).dbNow R2.PetID) = true := by
      refine List.any_eq_true.mpr ⟨R1', hR1S2, ?_⟩
      simp only [futureConfirmed, Bool.and_eq_true, decide_eq_true_eq]
      exact ⟨⟨by rw [hR1'pet, hA2], hR1'st⟩, by rw [hR1't]; exact hnow j⟩
    have hst2 : resolvedStatus (env.item j) S2.1.rows R2 = "cancelled" := by
      simp [resolvedStatus, hcheck2]
    have hn1 := processReservation_commit_mem (env.item j) S2.1 R2 R1' (hok _)
      (List.mem_map_of_mem _ hR2S2) hR1S2
    have hn2 := processReservation_commit_mem (env.item j) S2.1 R2 R2 (hok _)
      (List.mem_map_of_mem _ hR2S2) hR2S2
    have hu2' := processReservation_uniqueIDs (env.item j) S2.1 R2 hu2
    rw [hst2] at hn1 hn2
    have hb1 : applyWrite ⟨R2.ReservationID, "cancelled", (env.item j).appNow⟩ R1' = R1' := by
      unfold applyWrite; rw [if_neg (fun h => hR12 (hR1'id.symm.trans h))]
    have hb2 : applyWrite ⟨R2.ReservationID, "cancelled", (env.item j).appNow⟩ R2 =
        { R2 with Status := "cancelled", UpdatedAt := (env.item j).appNow } := by
      simp [applyWrite]
    rw [hb1] at hn1
    rw [hb2] at hn2
    refine ⟨(env.item j).appNow, ?_⟩
    rw [processLoop]
    split
    · next db1 e1 heq =>
      rw [heq] at hn1 hn2 hu2'
      exact ⟨processLoop_mem_of_id_ne _ _ _ _ _ _ hn1 (fun r hr => by rw [hR1'id]; exact hl3R1 r hr),
        processLoop_mem_of_id_ne _ _ _ _ _ _ hn2 hl3R2, processLoop_uniqueIDs _ _ _ _ _ hu2'⟩
    · next db1 heq =>
      rw [heq] at hn1 hn2 hu2'
      exact ⟨processLoop_mem_of_id_ne _ _ _ _ _ _ hn1 (fun r hr => by rw [hR1'id]; exact hl3R1 r hr),
        processLoop_mem_of_id_ne _ _ _ _ _ _ hn2 hl3R2, processLoop_uniqueIDs _ _ _ _ _ hu2'⟩
  split
  · next db1 e1 heq =>
    rw [heq] at hm1 hm2 hu1'
    exact key db1 _ hm1 hm2 hu1'
  · next db1 heq =>
    rw [heq] at hm1 hm2 hu1'
    exact key db1 _ hm1 hm2 hu1'

/-- Instance of C2: in the sample table the rows of pet A are IDs 1 (time 10) and 2
(time 20), both pending; with the clock at 5 and no failure, ID 1 is confirmed and ID 2
cancelled. -/
theorem earlier_wins_witness :
    ∃ u1 u2 : Nat,
      { pendingRow 1 "u1" "A" 10 with Status := "confirmed", UpdatedAt := u1 } ∈
          (processReservationsByStatus ⟨false, fun _ => calm 5⟩
            ⟨sampleRows, 0, []⟩ "pending").1.rows ∧
        { pendingRow 2 "u2" "A" 20 with Status := "cancelled", UpdatedAt := u2 } ∈
          (processReservationsByStatus ⟨false, fun _ => calm 5⟩
            ⟨sampleRows, 0, []⟩ "pending").1.rows ∧
        UniqueIDs (processReservationsByStatus ⟨false, fun _ => calm 5⟩
          ⟨sampleRows, 0, []⟩ "pending").1.rows :=
  earlier_wins ⟨false, fun _ => calm 5⟩ ⟨sampleRows, 0, []⟩ "A" (pendingRow 1 "u1" "A" 10)
    (pendingRow 2 "u2" "A" 20) (by decide) (by decide) (by decide) rfl rfl (by decide) rfl rfl
    (by decide) (fun _ => (by decide : (calm 5).dbNow < 10)) rfl
    (fun _ => (by decide : noFailure (calm 5) = true))

theorem any_futureConfirmed_iff (now : Nat) (petID : String) (rows : List Reservation) :
    rows.any (futureConfirmed now petID) = true ↔
      ∃ c ∈ rows, c.PetID = petID ∧ c.Status = "confirmed" ∧ now < c.ReservationDateTime := by
  simp [List.any_eq_true, futureConfirmed, and_assoc]

theorem itemCommits_false_of_failure (e : ItemEnv) (rows : List Reservation) (r : Reservation)
    (h : noFailure e = false) : itemCommits e rows r = false := by
  unfold itemCommits
  unfold noFailure at h
  rw [h]; rfl

theorem processLoop_events (item : Nat → ItemEnv) (rs : List Reservation) :
    ∀ (i : Nat) (db : DB) (events : List ReservationEvent),
      (∀ r ∈ rs, r.ReservationID ∈ db.rows.map (fun x => x.ReservationID)) →
      (processLoop item i rs db events).2 =
        events ++ ((rs.enumFrom i).filter (fun p => noFailure (item p.1))).map
          (fun p => eventOf p.2) := by
  induction rs with
  | nil => intro i db events _; simp [processLoop]
  | cons r rest ih =>
    intro i db events hin
    have hids := ids_of_frame (processReservation_frame (item i) db r)
    have hrest : ∀ x ∈ rest, x.ReservationID ∈
        (processReservation (item i) db r).1.rows.map (fun x => x.ReservationID) := by
      intro x hx; rw [hids]; exact hin x (List.mem_cons_of_mem _ hx)
    have hc := itemCommits_eq (item i) db.rows r (hin r (List.mem_cons_self _ _))
    rcases processReservation_rows (item i) db r with ⟨_, hev, hcm⟩ | ⟨_, hev, hcm⟩
    · rw [hc] at hcm
      rw [processLoop]
      split
      · next db1 ev heq => rw [heq] at hev; cases hev
      · next db1 heq =>
        rw [heq] at hrest
        rw [ih _ _ _ hrest]
        simp [List.enumFrom_cons, List.filter_cons, hcm]
    · rw [hc] at hcm
      rw [processLoop]
      split
      · next db1 ev heq =>
        rw [heq] at hrest hev
        rw [ih _ _ _ hrest]
        cases hev
        simp [List.enumFrom_cons, List.filter_cons, hcm]
      · next db1 heq => rw [heq] at hev; cases hev

theorem backlog_ids_mem (rows : List Reservation) (status : String) :
    ∀ r ∈ backlog rows status, r.ReservationID ∈ rows.map (fun x => x.ReservationID) :=
  fun _ hr => List.mem_map_of_mem _ (mem_backlog.mp hr).1

/-- C3. Resolver decision rule: when no driver call fails for a reservation `R` of the
table, every row with the ID of `R` ends with status cancelled if a confirmed row of
`R.PetID` scheduled later than the database clock existed at the existence check, and
confirmed otherwise; that row is `R` with only status and `updated_at` changed; and the
body yields one event carrying `R`'s UserID, ReservationDateTime, PetID and CreatedAt. -/
theorem resolver_decision_rule (e : ItemEnv) (db : DB) (R : Reservation)
    (hR : R ∈ db.rows) (hok : noFailure e = true) :
    (∀ x ∈ (processReservation e db R).1.rows, x.ReservationID = R.ReservationID →
        ((∃ c ∈ db.rows, c.PetID = R.PetID ∧ c.Status = "confirmed" ∧
            e.dbNow < c.ReservationDateTime) → x.Status = "cancelled") ∧
        ((¬ ∃ c ∈ db.rows, c.PetID = R.PetID ∧ c.Status = "confirmed" ∧
            e.dbNow < c.ReservationDateTime) → x.Status = "confirmed")) ∧
      (∃ st, { R with Status := st, UpdatedAt := e.appNow } ∈ (processReservation e db R).1.rows) ∧
      (processReservation e db R).2 =
        some { UserID := R.UserID, DateTime := R.ReservationDateTime, PetID := R.PetID,
               CreatedAt := R.CreatedAt } := by
  have hc : itemCommits e db.rows R = true := by
    rw [itemCommits_eq e db.rows R (List.mem_map_of_mem _ hR)]; exact hok
  obtain ⟨hrows, hev⟩ := processReservation_commit e db R hc
  refine ⟨?_, ?_, ?_⟩
  · intro x hx hid
    rw [hrows] at hx
    obtain ⟨y, _, hyx⟩ := List.mem_map.mp hx
    have hyid : y.ReservationID = R.ReservationID := by
      rw [← hid, ← hyx, applyWrite_id]
    have hst : x.Status = resolvedStatus e db.rows R := by
      rw [← hyx]; simp [applyWrite, hyid]
    rw [hst]
    constructor
    · intro hex
      simp [resolvedStatus, (any_futureConfirmed_iff _ _ _).mpr hex]
    · intro hex
      have : db.rows.any (futureConfirmed e.dbNow R.PetID) = false := by
        cases h : db.rows.any (futureConfirmed e.dbNow R.PetID)
        · rfl
        · exact absurd ((any_futureConfirmed_iff _ _ _).mp h) hex
      simp [resolvedStatus, this]
  · refine ⟨resolvedStatus e db.rows R, ?_⟩
    rw [hrows]
    refine List.mem_map.mpr ⟨R, hR, ?_⟩
    simp [applyWrite]
  · rw [hev]; rfl

/-- Instance of C3: in the sample table pet B has a confirmed row at time 15; at clock 5 the
pending row of ID 4 for pet B is resolved to cancelled and yields its event. -/
theorem resolver_decision_rule_witness :
    (processReservation (calm 5) ⟨sampleRows, 0, []⟩ (pendingRow 4 "u4" "B" 30)).2 =
      some { UserID := "u4", DateTime := 30, PetID := "B", CreatedAt := 1 } :=
  (resolver_decision_rule (calm 5) ⟨sampleRows, 0, []⟩ (pendingRow 4 "u4" "B" 30)
    (by decide) (by decide)).2.2

/-- C4. Partial-failure tolerance: whenever the initial read succeeds,
`processReservationsByStatus` returns no error and its events are exactly the events of
the backlog items none of whose driver calls fails (the items whose transaction
commits), in backlog order, whatever happens to the other items. -/
theorem per_item_failure_tolerance (env : Env) (db : DB) (status : String)
    (h : env.fetchErr = false) :
    (processReservationsByStatus env db status).2 =
      .ok (committedEvents env.item (backlog db.rows status)) := by
  rw [processReservationsByStatus_ok env db status h]
  simp only
  rw [processLoop_events env.item _ 0
    { db with log := db.log ++ [Op.selectByStatus Handle.pool status] } []
    (backlog_ids_mem db.rows status)]
  simp [committedEvents, List.enum]

/-- Instance of C4: three pending rows, the update of the second fails; the call
succeeds with the events of the first and the third. -/
theorem per_item_failure_tolerance_witness :
    (processReservationsByStatus
        ⟨false, fun j => { calm 5 with execErr := decide (j = 1) }⟩
        ⟨threePending, 0, []⟩ "pending").2 =
      .ok [eventOf (pendingRow 1 "u1" "pet1" 10), eventOf (pendingRow 3 "u3" "pet3" 30)] :=
  (per_item_failure_tolerance _ ⟨threePending, 0, []⟩ "pending" rfl).trans
    (congrArg Except.ok (by decide))

theorem split_at_index {α : Type} : ∀ (l : List α) (i : Nat) (x : α), l[i]? = some x →
    ∃ l1 l2, l = l1 ++ x :: l2 ∧ l1.length = i := by
  intro l
  induction l with
  | nil => intro i x h; simp at h
  | cons a t ih =>
    intro i x h
    cases i with
    | zero =>
      simp at h
      exact ⟨[], t, by simp [h], rfl⟩
    | succ n =>
      simp at h
      obtain ⟨l1, l2, h1, h2⟩ := ih n x h
      exact ⟨a :: l1, l2, by simp [h1], by simp [h2]⟩

theorem processReservationsByStatus_events (env : Env) (db : DB) (status : String)
    (h : env.fetchErr = false) :
    (processReservationsByStatus env db status).2 =
      .ok (committedEvents env.item (backlog db.rows status)) := by
  rw [processReservationsByStatus_ok env db status h]
  simp only
  rw [processLoop_events env.item _ 0
    { db with log := db.log ++ [Op.selectByStatus Handle.pool status] } []
    (backlog_ids_mem db.rows status)]
  simp [committedEvents, List.enum]

/-- C5. Atomicity of a skipped item: with unique IDs, if the `i`-th backlog item `R` of a
run has a failing driver call (transaction open, existence check, update or commit),
then after the run the table still holds `R` itself, it is the only row with that ID,
its status is still pending, and the returned events are those of the committing items
other than the `i`-th. -/
theorem skipped_item_unchanged (env : Env) (db : DB) (i : Nat) (R : Reservation)
    (hu : UniqueIDs db.rows) (hfetch : env.fetchErr = false)
    (hi : (backlog db.rows "pending")[i]? = some R)
    (hfail : noFailure (env.item i) = false) :
    R ∈ (processReservationsByStatus env db "pending").1.rows ∧
      (∀ x ∈ (processReservationsByStatus env db "pending").1.rows,
        x.ReservationID = R.ReservationID → x = R) ∧
      R.Status = "pending" ∧
      (processReservationsByStatus env db "pending").2 =
        .ok ((((backlog db.rows "pending").enum.filter
          (fun p => decide (p.1 ≠ i) && noFailure (env.item p.1))).map (fun p => eventOf p.2))) := by
  have hmemR : R ∈ backlog db.rows "pending" := by
    obtain ⟨l1, l2, hcut, _⟩ := split_at_index _ i R hi
    rw [hcut]; simp
  have hR := mem_backlog.mp hmemR
  have hev := processReservationsByStatus_events env db "pending" hfetch
  have hmem : R ∈ (processReservationsByStatus env db "pending").1.rows := by
    rw [processReservationsByStatus_ok env db "pending" hfetch]
    have hbu : (backlog db.rows "pending").Pairwise
        (fun a b => a.ReservationID ≠ b.ReservationID) := by
      have := backlog_uniqueIDs hu "pending"
      unfold UniqueIDs List.Nodup at this
      exact List.pairwise_map.mp this
    obtain ⟨l1, l2, hcut, hlen⟩ := split_at_index _ i R hi
    rw [hcut] at hbu ⊢
    have hP := List.pairwise_append.mp hbu
    have hP1 := List.pairwise_cons.mp hP.2.1
    simp only
    rw [processLoop_append]
    have hS1 : R ∈ (processLoop env.item 0 l1
        { db with log := db.log ++ [Op.selectByStatus Handle.pool "pending"] } []).1.rows :=
      processLoop_mem_of_id_ne _ _ _ _ _ _ hR.1
        (fun r hr => hP.2.2 r hr R (List.mem_cons_self _ _))
    generalize processLoop env.item 0 l1
      { db with log := db.log ++ [Op.selectByStatus Handle.pool "pending"] } [] = S1 at hS1
    have hidx : 0 + l1.length = i := by omega
    rw [hidx, processLoop]
    have hstep := processReservation_mem_of_id_ne (env.item i) S1.1 R R hS1
      (Or.inr (itemCommits_false_of_failure _ _ _ hfail))
    split
    · next db1 ev heq =>
      rw [heq] at hstep
      exact processLoop_mem_of_id_ne _ _ _ _ _ _ hstep (fun r hr => (hP1.1 r hr).symm)
    · next db1 heq =>
      rw [heq] at hstep
      exact processLoop_mem_of_id_ne _ _ _ _ _ _ hstep (fun r hr => (hP1.1 r hr).symm)
  have hufinal : UniqueIDs (processReservationsByStatus env db "pending").1.rows := by
    rw [processReservationsByStatus_ok env db "pending" hfetch]
    exact processLoop_uniqueIDs _ _ _ _ _ hu
  refine ⟨hmem, fun x hx hid => eq_of_mem_of_id_eq hufinal hx hmem hid, hR.2, ?_⟩
  rw [hev, committedEvents]
  congr 2
  apply List.filter_congr
  intro p _
  by_cases hp : p.1 = i
  · simp [hp, hfail]
  · simp [hp]

/-- Instance of C5: in the sample table the second backlog item (ID 3 is confirmed, so the
pending ones are IDs 1, 2, 4 by time 10, 20, 30) fails at commit and keeps its row. -/
theorem skipped_item_unchanged_witness :
    pendingRow 2 "u2" "A" 20 ∈
      (processReservationsByStatus
        ⟨false, fun j => { calm 5 with commitErr := decide (j = 1) }⟩
        ⟨sampleRows, 0, []⟩ "pending").1.rows :=
  (skipped_item_unchanged ⟨false, fun j => { calm 5 with commitErr := decide (j = 1) }⟩
    ⟨sampleRows, 0, []⟩ 1 (pendingRow 2 "u2" "A" 20) (by decide) rfl (by decide) (by decide)).1

/-- C6. `processReservationsByStatus` returns an error exactly when the initial read
fails; in that case the only call that reaches the database is the read itself: the rows
and the number of transactions begun are unchanged, the log gains the one `SELECT`, and
no event list is returned. -/
theorem error_iff_fetch_fails (env : Env) (db : DB) (status : String) :
    ((processReservationsByStatus env db status).2.toBool = !env.fetchErr) ∧
      (processReservationsByStatus ⟨true, env.item⟩ db status).1 =
        { db with log := db.log ++ [Op.selectByStatus Handle.pool status] } ∧
      (∀ events, (processReservationsByStatus ⟨true, env.item⟩ db status).2 ≠ .ok events) := by
  refine ⟨?_, ?_, ?_⟩
  · cases h : env.fetchErr
    · rw [processReservationsByStatus_ok env db status h]; rfl
    · rw [processReservationsByStatus_err env db status h]; rfl
  · rw [processReservationsByStatus_err ⟨true, env.item⟩ db status rfl]
  · intro events
    rw [processReservationsByStatus_err ⟨true, env.item⟩ db status rfl]
    intro h; cases h

/-- Evaluation for C7 on a table with one pending row and no failure: the existence check
is logged on the pool, between `BEGIN` and the update of transaction 0, and the
transaction handle carries the update only. -/
theorem check_issued_on_pool :
    (processReservationsByStatus ⟨false, fun _ => calm 5⟩
        ⟨[pendingRow 1 "u1" "pet1" 10], 0, []⟩ "pending").1.log =
      [Op.selectByStatus Handle.pool "pending", Op.beginTx 0,
        Op.selectExists Handle.pool "pet1", Op.update (Handle.tx 0) 1 "confirmed",
        Op.commit 0 true] := by
  decide

theorem sendTaskSuccess_nonlocal (w : SfnEnv) (events : List ReservationEvent)
    (hl : w.envLocal = false) (hc : w.clientNil = false) :
    sendTaskSuccess w events =
      match jsonMarshal w.jsonTimeOk (events.map NewReservationNotification) with
      | .error _ => ([], .error "failed to marshal notifications")
      | .ok output =>
        if w.taskToken = "" then ([], .error "SFN_TASK_TOKEN is not set in config")
        else if w.sendSuccessErr then
          ([ReportOp.sendTaskSuccess w.taskToken output], .error "failed to send task success")
        else ([ReportOp.sendTaskSuccess w.taskToken output], .ok ()) := by
  simp [sendTaskSuccess, hl, hc]

theorem Run_fetch_err (env : Env) (w : SfnEnv) (db : DB) (h : env.fetchErr = true) :
    (Run env w db).1.2 = [] ∧ (Run env w db).2.toBool = false := by
  simp [Run, processReservationsByStatus_err env db "pending" h, Except.toBool]

theorem Run_fetch_ok (env : Env) (w : SfnEnv) (db : DB) (h : env.fetchErr = false) :
    (Run env w db).1.2 =
        (sendTaskSuccess w (committedEvents env.item (backlog db.rows "pending"))).1 ∧
      (Run env w db).2.toBool =
        (sendTaskSuccess w (committedEvents env.item (backlog db.rows "pending"))).2.toBool := by
  have h1 := processReservationsByStatus_events env db "pending" h
  unfold Run
  generalize processReservationsByStatus env db "pending" = out at h1
  obtain ⟨db1, res⟩ := out
  simp only at h1
  subst h1
  simp only
  generalize sendTaskSuccess w (committedEvents env.item (backlog db.rows "pending")) = s
  obtain ⟨ops, res⟩ := s
  cases res <;> simp [Except.toBool]

theorem jsonMarshal_events (w : SfnEnv) (events : List ReservationEvent)
    (h : ∀ e ∈ events, w.jsonTimeOk e.CreatedAt = true ∧ w.jsonTimeOk e.DateTime = true) :
    jsonMarshal w.jsonTimeOk (events.map NewReservationNotification) =
      .ok (Json.obj [("notifications",
        Json.arr (events.map (fun e => (NewReservationNotification e).toJson)))]) := by
  have hall : (events.map NewReservationNotification).all
      (Notification.jsonOk w.jsonTimeOk) = true := by
    rw [List.all_eq_true]
    intro n hn
    obtain ⟨e, he, rfl⟩ := List.mem_map.mp hn
    simp [Notification.jsonOk, NewReservationNotification, AnyData.jsonOk, DataValue.jsonOk,
      (h e he).1, (h e he).2]
  simp [jsonMarshal, hall, List.map_map, Function.comp]

theorem main_delivered (env : Env) (w : SfnEnv) (timeout : Nat) (db : DB)
    (hl : w.envLocal = false) (hc : w.clientNil = false) :
    (main ⟨false, false⟩ env w timeout db).reports =
        (Run env w db).1.2 ++
          (if (Run env w db).2.toBool then []
            else [ReportOp.sendTaskFailure w.taskToken "Batch process failed"]) ∧
      (main ⟨false, false⟩ env w timeout db).exitCode =
        (if (Run env w db).2.toBool then 0 else 1) := by
  unfold main RunWithTimeout
  generalize Run env w db = out
  obtain ⟨eff, res⟩ := out
  cases res <;>
    simp [MainResult.reports, SendTaskFailure, hl, hc, Except.toBool]

/-- Counterexample to C8: non-local mode, empty backlog, the `SendTaskSuccess` call fails:
`Run` invokes `SendTaskSuccess`, then `main` invokes `SendTaskFailure` for the same token. -/
theorem single_terminal_report_counterexample :
    (main ⟨false, false⟩ ⟨false, fun _ => calm 5⟩ (sfnWorld true) 300 ⟨[], 0, []⟩).reports =
        [ReportOp.sendTaskSuccess "tok" (Json.obj [("notifications", Json.arr [])]),
          ReportOp.sendTaskFailure "tok" "Batch process failed"] ∧
      (main ⟨false, false⟩ ⟨false, fun _ => calm 5⟩ (sfnWorld true) 300
        ⟨[], 0, []⟩).reports.length ≠ 1 :=
  ⟨rfl, by decide⟩

/-- C8, amended. In non-local mode, when `main` receives the result of the run (no signal
and no timeout first), the orchestrator calls are: `SendTaskSuccess` alone when that call
is made and succeeds; `SendTaskFailure` alone when `SendTaskSuccess` is not reached (the
initial read fails, the output cannot be marshalled, or the token is empty); and
`SendTaskSuccess` followed by `SendTaskFailure` when the `SendTaskSuccess` call fails. -/
theorem terminal_reports (env : Env) (w : SfnEnv) (timeout : Nat) (db : DB)
    (hl : w.envLocal = false) (hc : w.clientNil = false) :
    (main ⟨false, false⟩ env w timeout db).reports =
      if env.fetchErr then [ReportOp.sendTaskFailure w.taskToken "Batch process failed"]
      else
        match jsonMarshal w.jsonTimeOk
            ((committedEvents env.item (backlog db.rows "pending")).map
              NewReservationNotification) with
        | .error _ => [ReportOp.sendTaskFailure w.taskToken "Batch process failed"]
        | .ok output =>
          if w.taskToken = "" then [ReportOp.sendTaskFailure w.taskToken "Batch process failed"]
          else if w.sendSuccessErr then
            [ReportOp.sendTaskSuccess w.taskToken output,
              ReportOp.sendTaskFailure w.taskToken "Batch process failed"]
          else [ReportOp.sendTaskSuccess w.taskToken output] := by
  rw [(main_delivered env w timeout db hl hc).1]
  cases hf : env.fetchErr
  · obtain ⟨h1, h2⟩ := Run_fetch_ok env w db hf
    rw [h1, h2, sendTaskSuccess_nonlocal w _ hl hc]
    cases hm : jsonMarshal w.jsonTimeOk
        ((committedEvents env.item (backlog db.rows "pending")).map NewReservationNotification)
    · simp [Except.toBool]
    · by_cases ht : w.taskToken = ""
      · simp [ht, Except.toBool]
      · cases hs : w.sendSuccessErr <;> simp [ht, Except.toBool]
  · obtain ⟨h1, h2⟩ := Run_fetch_err env w db hf
    rw [h1, h2]
    simp

/-- Instance of C8 (amended): three pending rows, nothing fails: one `SendTaskSuccess`. -/
theorem terminal_reports_witness :
    (main ⟨false, false⟩ ⟨false, fun _ => calm 5⟩ (sfnWorld false) 300
        ⟨threePending, 0, []⟩).reports =
      [ReportOp.sendTaskSuccess "tok"
        (Json.obj [("notifications", Json.arr
          (threePending.map (fun r => (NewReservationNotification (eventOf r)).toJson)))])] :=
  (terminal_reports ⟨false, fun _ => calm 5⟩ (sfnWorld false) 300 ⟨threePending, 0, []⟩
    rfl rfl).trans rfl

/-- Counterexample to C9: the backlog read succeeds (empty backlog) and the
`SendTaskSuccess` call fails: `Run` returns an error and the exit code is 1. -/
theorem reporter_error_counterexample :
    (Run ⟨false, fun _ => calm 5⟩ (sfnWorld true) ⟨[], 0, []⟩).2 =
        .error "failed to send task success: failed to send task success" ∧
      (main ⟨false, false⟩ ⟨false, fun _ => calm 5⟩ (sfnWorld true) 300
        ⟨[], 0, []⟩).exitCode = 1 := by
  constructor
  · rfl
  · decide

/-- C9, amended. Whenever the backlog read succeeds and the `SendTaskSuccess` call is made
and fails, `Run` returns an error; when `main` receives it (no signal and no timeout
first) it invokes `SendTaskFailure` and the exit code is 1, whether or not the
`SendTaskFailure` call itself fails. -/
theorem reporter_error_fails_run (env : Env) (w : SfnEnv) (timeout : Nat) (db : DB)
    (hfetch : env.fetchErr = false) (hl : w.envLocal = false) (hc : w.clientNil = false)
    (hm : ∀ e ∈ committedEvents env.item (backlog db.rows "pending"),
      w.jsonTimeOk e.CreatedAt = true ∧ w.jsonTimeOk e.DateTime = true)
    (htok : w.taskToken ≠ "") (hs : w.sendSuccessErr = true) :
    (Run env w db).2 = .error "failed to send task success: failed to send task success" ∧
      (main ⟨false, false⟩ env w timeout db).exitCode = 1 ∧
      (main ⟨false, false⟩ env w timeout db).mainReports =
        [ReportOp.sendTaskFailure w.taskToken "Batch process failed"] := by
  have h1 := processReservationsByStatus_events env db "pending" hfetch
  have hrun : (Run env w db).2 =
      .error "failed to send task success: failed to send task success" := by
    unfold Run
    generalize processReservationsByStatus env db "pending" = out at h1
    obtain ⟨db1, res⟩ := out
    simp only at h1
    subst h1
    simp only
    rw [sendTaskSuccess_nonlocal w _ hl hc, jsonMarshal_events w _ hm]
    simp [htok, hs]
  refine ⟨hrun, ?_, ?_⟩
  · rw [(main_delivered env w timeout db hl hc).2, hrun]; rfl
  · unfold main RunWithTimeout
    generalize Run env w db = out at hrun
    obtain ⟨eff, res⟩ := out
    simp only at hrun
    subst hrun
    simp [SendTaskFailure, hl, hc]

/-- Instance of C9 (amended): empty backlog, failing `SendTaskSuccess` and `SendTaskFailure`. -/
theorem reporter_error_fails_run_witness :
    (main ⟨false, false⟩ ⟨false, fun _ => calm 5⟩
        { sfnWorld true with sendFailureErr := true } 300 ⟨[], 0, []⟩).exitCode = 1 :=
  (reporter_error_fails_run ⟨false, fun _ => calm 5⟩
    { sfnWorld true with sendFailureErr := true } 300 ⟨[], 0, []⟩
    rfl rfl rfl (fun _ _ => ⟨rfl, rfl⟩) (by decide) rfl).2.1

/-- Counterexample to C10: a termination signal is received first; `main` logs it, calls
`cancel()` and returns, so the exit code is 0. -/
theorem exit_code_counterexample :
    (main ⟨true, false⟩ ⟨false, fun _ => calm 5⟩ (sfnWorld false) 300
      ⟨threePending, 0, []⟩).exitCode = 0 := by
  decide

/-- C10, amended. Exit code of `main`: 0 when a termination signal is received first;
otherwise 1 when the run times out, 0 when the run returns no error and 1 when it
returns an error. -/
theorem exit_code_mapping (h : Harness) (env : Env) (w : SfnEnv) (timeout : Nat) (db : DB) :
    (main h env w timeout db).exitCode =
      if h.signalFirst then 0
      else if h.timedOut then 1
      else if (Run env w db).2.toBool then 0 else 1 := by
  unfold main RunWithTimeout
  cases h.signalFirst
  · cases h.timedOut
    · generalize Run env w db = out
      obtain ⟨eff, res⟩ := out
      cases res <;> cases hl : w.envLocal <;> cases hc : w.clientNil <;>
        simp [Except.toBool]
    · cases hl : w.envLocal <;> cases hc : w.clientNil <;> simp
  · simp

/-- C11. `RunWithTimeout` returns the result of `fn` when `fn` finishes first, and the
error "batch process timed out after <timeout>" when the timeout fires first; `main`
then exits with code 1 and, in non-local mode, invokes `SendTaskFailure`: the same exit
code and the same call as for a run that fails (here on its initial read). -/
theorem timeout_handling {σ : Type} (timeout : Nat) (fn : σ × Except String Unit)
    (env : Env) (w : SfnEnv) (db : DB) :
    RunWithTimeout false timeout fn = (some fn.1, fn.2) ∧
      RunWithTimeout true timeout fn =
        (none, .error ("batch process timed out after " ++ toString timeout)) ∧
      (main ⟨false, true⟩ env w timeout db).exitCode = 1 ∧
      (main ⟨false, true⟩ env w timeout db).mainReports =
        (if w.envLocal || w.clientNil then []
          else [ReportOp.sendTaskFailure w.taskToken "Batch process failed"]) ∧
      (main ⟨false, true⟩ env w timeout db).exitCode =
        (main ⟨false, false⟩ ⟨true, env.item⟩ w timeout db).exitCode ∧
      (main ⟨false, true⟩ env w timeout db).mainReports =
        (main ⟨false, false⟩ ⟨true, env.item⟩ w timeout db).mainReports := by
  have hfail : (Run ⟨true, env.item⟩ w db).2 =
      .error ("failed to process pending reservations: " ++
        ("failed to get reservations with status " ++ "pending" ++ ": " ++
          ("failed to query reservations with status " ++ "pending"))) := by
    simp [Run, processReservationsByStatus_err ⟨true, env.item⟩ db "pending" rfl]
  refine ⟨rfl, rfl, ?_, ?_, ?_, ?_⟩
  · cases hl : w.envLocal <;> cases hc : w.clientNil <;> simp [main, RunWithTimeout, hl, hc]
  · cases hl : w.envLocal <;> cases hc : w.clientNil <;>
      simp [main, RunWithTimeout, SendTaskFailure, hl, hc]
  · unfold main RunWithTimeout
    generalize Run ⟨true, env.item⟩ w db = out at hfail
    obtain ⟨eff, res⟩ := out
    simp only at hfail
    subst hfail
    cases hl : w.envLocal <;> cases hc : w.clientNil <;> simp
  · unfold main RunWithTimeout
    generalize Run ⟨true, env.item⟩ w db = out at hfail
    obtain ⟨eff, res⟩ := out
    simp only at hfail
    subst hfail
    cases hl : w.envLocal <;> cases hc : w.clientNil <;> simp

/-- Evaluation for C12 in non-local mode: with `-timeout=10s` before the token the
process ends in `flag.Parse()` with exit code 2, and the batch does not run; without
the flag it runs with the token and 5 minutes. -/
theorem timeout_flag_rejected :
    mainArgs false ["-timeout=10s", "tok"] = .error 2 ∧
      mainArgs false ["tok"] = .ok (5 * Minute, "tok") :=
  ⟨rfl, rfl⟩

/-- C13. Local mode is a no-op for reporting: when `ENV` is `LOCAL` or the Step Functions
client is nil, `sendTaskSuccess` returns nil for every event list without a call, `Run`
makes no call, and `main` makes no call of its own, whatever the run returns. -/
theorem local_mode_no_report (w : SfnEnv) (h : w.envLocal = true ∨ w.clientNil = true) :
    (∀ events, sendTaskSuccess w events = ([], .ok ())) ∧
      (∀ env db, (Run env w db).1.2 = []) ∧
      (∀ hr env timeout db, (main hr env w timeout db).mainReports = []) := by
  have hs : ∀ events, sendTaskSuccess w events = ([], .ok ()) := by
    intro events
    rcases h with h | h <;> simp [sendTaskSuccess, h]
  refine ⟨hs, ?_, ?_⟩
  · intro env db
    unfold Run
    generalize processReservationsByStatus env db "pending" = out
    obtain ⟨db1, res⟩ := out
    cases res with
    | error e => rfl
    | ok events => simp [hs events]
  · intro hr env timeout db
    unfold main
    cases hr.signalFirst
    · generalize RunWithTimeout hr.timedOut timeout (Run env w db) = out
      obtain ⟨eff, res⟩ := out
      rcases h with h | h <;> cases res <;> simp [h]
    · simp

/-- Instance of C13: `ENV=LOCAL`, the initial read fails: exit code 1 and no call. -/
theorem local_mode_no_report_witness :
    (main ⟨false, false⟩ ⟨true, fun _ => calm 5⟩ { sfnWorld false with envLocal := true } 300
        ⟨threePending, 0, []⟩).mainReports = [] :=
  (local_mode_no_report { sfnWorld false with envLocal := true } (Or.inl rfl)).2.2
    ⟨false, false⟩ ⟨true, fun _ => calm 5⟩ 300 ⟨threePending, 0, []⟩

/-- C14. Success payload: in non-local mode with a non-empty task token, for every event
list whose instants `encoding/json` can write, `sendTaskSuccess` makes one
`SendTaskSuccess` call for the token, with the object whose only key `notifications`
holds one entry per event, in order: type `reservation`, `created_at` of the event, and
`data` with `user_id`, `pet_id` and `date_time` of the event. -/
theorem success_payload_shape (w : SfnEnv) (es : List ReservationEvent)
    (hl : w.envLocal = false) (hc : w.clientNil = false) (htok : w.taskToken ≠ "")
    (hm : ∀ e ∈ es, w.jsonTimeOk e.CreatedAt = true ∧ w.jsonTimeOk e.DateTime = true) :
    (sendTaskSuccess w es).1 =
      [ReportOp.sendTaskSuccess w.taskToken
        (Json.obj [("notifications", Json.arr (es.map (fun e =>
          Json.obj [("type", Json.str "reservation"), ("created_at", Json.time e.CreatedAt),
            ("data", Json.obj [("user_id", Json.str e.UserID), ("pet_id", Json.str e.PetID),
              ("date_time", Json.time e.DateTime)])])))])] := by
  rw [sendTaskSuccess_nonlocal w es hl hc, jsonMarshal_events w es hm]
  cases hs : w.sendSuccessErr <;> simp [htok] <;> intro a _ <;> rfl

/-- Instance of C14: two events, token `tok`. -/
theorem success_payload_shape_witness :
    (sendTaskSuccess (sfnWorld false) [⟨"u1", 10, "pet1", 1⟩, ⟨"u2", 20, "pet2", 2⟩]).1 =
      [ReportOp.sendTaskSuccess "tok"
        (Json.obj [("notifications", Json.arr
          [Json.obj [("type", Json.str "reservation"), ("created_at", Json.time 1),
            ("data", Json.obj [("user_id", Json.str "u1"), ("pet_id", Json.str "pet1"),
              ("date_time", Json.time 10)])],
           Json.obj [("type", Json.str "reservation"), ("created_at", Json.time 2),
            ("data", Json.obj [("user_id", Json.str "u2"), ("pet_id", Json.str "pet2"),
              ("date_time", Json.time 20)])]])])] :=
  success_payload_shape (sfnWorld false) [⟨"u1", 10, "pet1", 1⟩, ⟨"u2", 20, "pet2", 2⟩]
    rfl rfl (by decide) (fun _ _ => ⟨rfl, rfl⟩)

theorem backlog_eq_nil {rows : List Reservation} {status : String}
    (h : ∀ r ∈ rows, r.Status ≠ status) : backlog rows status = [] := by
  have : rows.filter (fun r => decide (r.Status = status)) = [] := by
    rw [List.filter_eq_nil_iff]
    intro r hr
    simpa using h r hr
  simp [backlog, this]

/-- Counterexample to C15: no row is pending, the read succeeds, and in non-local mode the
`SendTaskSuccess` call fails: the event list is empty, but `Run` returns an error. -/
theorem zero_backlog_counterexample :
    (∀ r ∈ [{ pendingRow 3 "u3" "B" 15 with Status := "confirmed" }], r.Status ≠ "pending") ∧
      (processReservationsByStatus ⟨false, fun _ => calm 5⟩
        ⟨[{ pendingRow 3 "u3" "B" 15 with Status := "confirmed" }], 0, []⟩ "pending").2 = .ok [] ∧
      (Run ⟨false, fun _ => calm 5⟩ (sfnWorld true)
        ⟨[{ pendingRow 3 "u3" "B" 15 with Status := "confirmed" }], 0, []⟩).2 =
        .error "failed to send task success: failed to send task success" :=
  ⟨by decide, rfl, rfl⟩

/-- C15, amended. Zero-backlog run: when no row has status pending and the initial read
succeeds, `processReservationsByStatus("pending")` returns the empty event list and no
error, and the only call that reaches the database is the read (no transaction, no
write); in local mode `Run` returns nil without a call; in non-local mode with a token
`Run` calls `SendTaskSuccess` with an empty `notifications` array, and returns nil when
that call succeeds and its error when it fails. -/
theorem zero_backlog_run (env : Env) (w : SfnEnv) (db : DB)
    (hnone : ∀ r ∈ db.rows, r.Status ≠ "pending") (hfetch : env.fetchErr = false) :
    processReservationsByStatus env db "pending" =
        ({ db with log := db.log ++ [Op.selectByStatus Handle.pool "pending"] }, .ok []) ∧
      (w.envLocal = true ∨ w.clientNil = true → Run env w db =
        (({ db with log := db.log ++ [Op.selectByStatus Handle.pool "pending"] }, []),
          .ok ())) ∧
      (w.envLocal = false → w.clientNil = false → w.taskToken ≠ "" →
        (Run env w db).1.2 =
            [ReportOp.sendTaskSuccess w.taskToken (Json.obj [("notifications", Json.arr [])])] ∧
          (w.sendSuccessErr = false → (Run env w db).2 = .ok ()) ∧
          (w.sendSuccessErr = true → (Run env w db).2 =
            .error "failed to send task success: failed to send task success")) := by
  have hp : processReservationsByStatus env db "pending" =
      ({ db with log := db.log ++ [Op.selectByStatus Handle.pool "pending"] }, .ok []) := by
    rw [processReservationsByStatus_ok env db "pending" hfetch, backlog_eq_nil hnone]
    rfl
  refine ⟨hp, ?_, ?_⟩
  · intro h
    have hs : sendTaskSuccess w [] = ([], .ok ()) := by
      rcases h with h | h <;> simp [sendTaskSuccess, h]
    simp [Run, hp, hs]
  · intro hl hc htok
    have hs := sendTaskSuccess_nonlocal w [] hl hc
    have hj : jsonMarshal w.jsonTimeOk ([].map NewReservationNotification) =
        .ok (Json.obj [("notifications", Json.arr [])]) := by
      simp [jsonMarshal]
    rw [hj] at hs
    cases hse : w.sendSuccessErr <;> simp [Run, hp, hs, htok, hse]

/-- Instance of C15 (amended): a table with one confirmed row, token `tok`, nothing
fails. -/
theorem zero_backlog_run_witness :
    processReservationsByStatus ⟨false, fun _ => calm 5⟩
        ⟨[{ pendingRow 3 "u3" "B" 15 with Status := "confirmed" }], 0, []⟩ "pending" =
      (⟨[{ pendingRow 3 "u3" "B" 15 with Status := "confirmed" }], 0,
        [Op.selectByStatus Handle.pool "pending"]⟩, .ok []) :=
  (zero_backlog_run ⟨false, fun _ => calm 5⟩ (sfnWorld false)
    ⟨[{ pendingRow 3 "u3" "B" 15 with Status := "confirmed" }], 0, []⟩
    (by decide) rfl).1

theorem resolvedStatus_cases (e : ItemEnv) (rows : List Reservation) (r : Reservation) :
    resolvedStatus e rows r = "confirmed" ∨ resolvedStatus e rows r = "cancelled" := by
  unfold resolvedStatus
  split
  · exact Or.inr rfl
  · exact Or.inl rfl

theorem processLoop_rows_map (item : Nat → ItemEnv) (rs : List Reservation) :
    ∀ (i : Nat) (db : DB) (events : List ReservationEvent),
      ∃ f : Reservation → Reservation,
        (processLoop item i rs db events).1.rows = db.rows.map f ∧
        ∀ r : Reservation, frame (f r) = frame r ∧
          ((∀ b ∈ rs, b.ReservationID ≠ r.ReservationID) → f r = r) ∧
          (f r = r ∨ (f r).Status = "confirmed" ∨ (f r).Status = "cancelled") := by
  induction rs with
  | nil =>
    intro i db events
    exact ⟨id, by simp [processLoop], fun r => ⟨rfl, fun _ => rfl, Or.inl rfl⟩⟩
  | cons b rest ih =>
    intro i db events
    -- the step is a map by some `g` that touches only rows with the ID of `b`
    have hstep : ∃ g : Reservation → Reservation,
        (processReservation (item i) db b).1.rows = db.rows.map g ∧
        ∀ r : Reservation, frame (g r) = frame r ∧
          (b.ReservationID ≠ r.ReservationID → g r = r) ∧
          (g r = r ∨ (g r).Status = "confirmed" ∨ (g r).Status = "cancelled") := by
      rcases processReservation_rows (item i) db b with ⟨h, _, _⟩ | ⟨h, _, _⟩
      · exact ⟨id, by simp [h], fun r => ⟨rfl, fun _ => rfl, Or.inl rfl⟩⟩
      · refine ⟨applyWrite ⟨b.ReservationID, resolvedStatus (item i) db.rows b, (item i).appNow⟩,
          h, fun r => ⟨applyWrite_frame _ r, ?_, ?_⟩⟩
        · intro hne
          unfold applyWrite
          rw [if_neg (fun h => hne h.symm)]
        · by_cases hid : r.ReservationID = b.ReservationID
          · right
            rcases resolvedStatus_cases (item i) db.rows b with hs | hs
            · left; simp [applyWrite, hid, hs]
            · right; simp [applyWrite, hid, hs]
          · left
            unfold applyWrite
            rw [if_neg hid]
    obtain ⟨g, hg, hgp⟩ := hstep
    have key : ∀ (db1 : DB) (ev : List ReservationEvent), db1.rows = db.rows.map g →
        ∃ f : Reservation → Reservation,
          (processLoop item (i + 1) rest db1 ev).1.rows = db.rows.map f ∧
          ∀ r : Reservation, frame (f r) = frame r ∧
            ((∀ x ∈ b :: rest, x.ReservationID ≠ r.ReservationID) → f r = r) ∧
            (f r = r ∨ (f r).Status = "confirmed" ∨ (f r).Status = "cancelled") := by
      intro db1 ev hdb1
      obtain ⟨f2, hf2, hf2p⟩ := ih (i + 1) db1 ev
      refine ⟨f2 ∘ g, by rw [hf2, hdb1, List.map_map], fun r => ⟨?_, ?_, ?_⟩⟩
      · rw [Function.comp, (hf2p (g r)).1, (hgp r).1]
      · intro hne
        have hg1 : g r = r := (hgp r).2.1 (hne b (List.mem_cons_self _ _))
        rw [Function.comp, hg1]
        exact (hf2p r).2.1 (fun x hx => hne x (List.mem_cons_of_mem _ hx))
      · rcases (hf2p (g r)).2.2 with h2 | h2
        · rw [Function.comp, h2]; exact (hgp r).2.2
        · right; exact h2
    rw [processLoop]
    split
    · next db1 ev heq => rw [heq] at hg; exact key db1 _ hg
    · next db1 heq => rw [heq] at hg; exact key db1 _ hg

/-- C16. Terminal states are never revisited: with unique IDs and for every failure
pattern, the table after `processReservationsByStatus("pending")` is the table before
with each row mapped to a row with the same ID and the same columns other than status
and `updated_at` (no row is created, deleted or moved); a row that was confirmed or
cancelled is unchanged; a row that was pending is unchanged or has status confirmed
or cancelled. -/
theorem terminal_states_kept (env : Env) (db : DB) (hu : UniqueIDs db.rows) :
    ∃ f : Reservation → Reservation,
      (processReservationsByStatus env db "pending").1.rows = db.rows.map f ∧
      ∀ r ∈ db.rows, frame (f r) = frame r ∧
        (r.Status = "confirmed" ∨ r.Status = "cancelled" → f r = r) ∧
        (r.Status = "pending" →
          f r = r ∨ (f r).Status = "confirmed" ∨ (f r).Status = "cancelled") := by
  cases hf : env.fetchErr
  · rw [processReservationsByStatus_ok env db "pending" hf]
    obtain ⟨f, hf1, hf2⟩ := processLoop_rows_map env.item (backlog db.rows "pending") 0
      { db with log := db.log ++ [Op.selectByStatus Handle.pool "pending"] } []
    refine ⟨f, hf1, fun r hr => ⟨(hf2 r).1, ?_, fun _ => (hf2 r).2.2⟩⟩
    intro hterm
    apply (hf2 r).2.1
    intro b hb hid
    have hbm := mem_backlog.mp hb
    have : b = r := eq_of_mem_of_id_eq hu hbm.1 hr hid
    rw [this] at hbm
    rcases hterm with h | h <;> rw [h] at hbm <;> exact absurd hbm.2 (by decide)
  · rw [processReservationsByStatus_err env db "pending" hf]
    exact ⟨id, by simp, fun r _ => ⟨rfl, fun _ => rfl, fun _ => Or.inl rfl⟩⟩

/-- Instance of C16: the sample table with the second item failing at commit; the
confirmed row of ID 3 is still there. -/
theorem terminal_states_kept_witness :
    ∃ f : Reservation → Reservation,
      (processReservationsByStatus
          ⟨false, fun j => { calm 5 with commitErr := decide (j = 1) }⟩
          ⟨sampleRows, 0, []⟩ "pending").1.rows = sampleRows.map f ∧
      ∀ r ∈ sampleRows, frame (f r) = frame r ∧
        (r.Status = "confirmed" ∨ r.Status = "cancelled" → f r = r) ∧
        (r.Status = "pending" →
          f r = r ∨ (f r).Status = "confirmed" ∨ (f r).Status = "cancelled") :=
  terminal_states_kept ⟨false, fun j => { calm 5 with commitErr := decide (j = 1) }⟩
    ⟨sampleRows, 0, []⟩ (by decide)

theorem applyWrites_ids (ws : List Write) :
    ∀ rows : List Reservation,
      (applyWrites ws rows).map (fun r => r.ReservationID) =
        rows.map (fun r => r.ReservationID) := by
  induction ws with
  | nil => intro rows; rfl
  | cons w rest ih =>
    intro rows
    have h1 : applyWrites (w :: rest) rows = applyWrites rest (rows.map (applyWrite w)) := rfl
    rw [h1, ih, List.map_map]
    apply List.map_congr_left
    intro a _
    exact applyWrite_id w a

theorem filter_id_length (rows : List Reservation) (k : Int) :
    (rows.filter (fun r => decide (r.ReservationID = k))).length =
      (rows.map (fun r => r.ReservationID)).count k := by
  rw [List.count, List.countP_map, List.countP_eq_length_filter]
  congr 2

/-- C17. `UpdateStatus` signals not-found: when `ExecContext` and `RowsAffected` return no
error, it returns the error "no reservation found with ID <id>" if no row of the table
has the ID and nil if some row has it; in every case it only issues the `UPDATE` on the
handle of the transaction it is given: the committed rows and the number of
transactions are unchanged and nothing else is logged (no commit, no rollback). -/
theorem updateStatus_not_found (execErr rowsAffectedErr : Bool) (appNow : Nat) (db : DB)
    (tx : Tx) (reservationID : Int) (status : String) :
    (execErr = false → rowsAffectedErr = false →
        (∀ r ∈ db.rows, r.ReservationID ≠ reservationID) →
        (UpdateStatus execErr rowsAffectedErr appNow db tx reservationID status).2.2 =
          .error ("no reservation found with ID " ++ toString reservationID)) ∧
      (execErr = false → rowsAffectedErr = false →
        (∃ r ∈ db.rows, r.ReservationID = reservationID) →
        (UpdateStatus execErr rowsAffectedErr appNow db tx reservationID status).2.2 = .ok ()) ∧
      (UpdateStatus execErr rowsAffectedErr appNow db tx reservationID status).1 =
        { db with log := db.log ++ [Op.update (Handle.tx tx.id) reservationID status] } := by
  have hlen : ((applyWrites tx.writes db.rows).filter
      (fun r => decide (r.ReservationID = reservationID))).length =
      (db.rows.map (fun r => r.ReservationID)).count reservationID := by
    rw [filter_id_length, applyWrites_ids]
  refine ⟨?_, ?_, ?_⟩
  · intro h1 h2 hno
    have h0 : (db.rows.map (fun r => r.ReservationID)).count reservationID = 0 := by
      rw [List.count_eq_zero]
      intro hmem
      obtain ⟨r, hr, hid⟩ := List.mem_map.mp hmem
      exact hno r hr hid
    simp [UpdateStatus, h1, h2, hlen, h0]
  · intro h1 h2 hex
    have h0 : (db.rows.map (fun r => r.ReservationID)).count reservationID ≠ 0 := by
      obtain ⟨r, hr, hid⟩ := hex
      have hmem : reservationID ∈ db.rows.map (fun r => r.ReservationID) :=
        List.mem_map.mpr ⟨r, hr, hid⟩
      exact Nat.pos_iff_ne_zero.mp (List.count_pos_iff.mpr hmem)
    simp [UpdateStatus, h1, h2, hlen, h0]
  · unfold UpdateStatus
    cases execErr <;> cases rowsAffectedErr <;> simp
    split <;> rfl

/-- Instance of C17: in the sample table ID 9 matches no row, ID 1 matches one. -/
theorem updateStatus_not_found_witness :
    (UpdateStatus false false 5 ⟨sampleRows, 1, []⟩ ⟨0, []⟩ 9 "confirmed").2.2 =
        .error "no reservation found with ID 9" ∧
      (UpdateStatus false false 5 ⟨sampleRows, 1, []⟩ ⟨0, []⟩ 1 "confirmed").2.2 = .ok () :=
  ⟨(updateStatus_not_found false false 5 ⟨sampleRows, 1, []⟩ ⟨0, []⟩ 9 "confirmed").1 rfl rfl
      (by decide),
    (updateStatus_not_found false false 5 ⟨sampleRows, 1, []⟩ ⟨0, []⟩ 1 "confirmed").2.1 rfl rfl
      (by decide)⟩

/-- C18. Reservation notification conversion: for a notification of type `reservation`
whose `Data` is a map with a string `user_id`, a string `pet_id` that is a key of
`petNameMap`, and a `date_time` that is an instant or a string `time.Parse` accepts as
RFC 3339, `ToNotificationRecord` returns no error and the record with title
"予約が完了しました", type `reservation`, `IsRead` false, the user ID, `CreatedAt` and
`UpdatedAt` of the notification, and the message made of the fixed text, the instant
formatted as "2006-01-02 15:04" and the pet name. -/
theorem reservation_conversion (parseRFC3339 : String → Option Nat)
    (formatMinute : Nat → String) (n : Notification) (petNameMap : List (String × String))
    (data : List (String × DataValue)) (userID petID petName : String) (dateTime : Nat)
    (htype : n.Type_ = "reservation") (hdata : n.Data = AnyData.map data)
    (huser : data.lookup "user_id" = some (DataValue.str userID))
    (hpet : data.lookup "pet_id" = some (DataValue.str petID))
    (hname : petNameMap.lookup petID = some petName)
    (hdt : data.lookup "date_time" = some (DataValue.time dateTime) ∨
      ∃ v, data.lookup "date_time" = some (DataValue.str v) ∧ parseRFC3339 v = some dateTime) :
    ToNotificationRecord parseRFC3339 formatMinute n petNameMap =
      Outcome.ok
        { ID := 0, UserID := userID, Title := "予約が完了しました",
          Message := "予約が完了しました。見学をお楽しみください。\n予約日時: " ++
            formatMinute dateTime ++ "\nペット名: " ++ petName,
          IsRead := false, Type_ := "reservation", CreatedAt := n.CreatedAt,
          UpdatedAt := n.CreatedAt } := by
  unfold ToNotificationRecord
  rw [hdata]
  rcases hdt with hdt | ⟨v, hdt, hparse⟩
  · simp [htype, hpet, hname, hdt, huser]
  · simp [htype, hpet, hname, hdt, hparse, huser]

/-- Instance of C18: the first case of `TestToNotificationRecord`, the string "T" being
parsed to instant 7 and instant 7 formatted as "D". -/
theorem reservation_conversion_witness :
    ToNotificationRecord (fun v => if v = "T" then some 7 else none) (fun _ => "D")
        ⟨"reservation", 3, AnyData.map [("user_id", DataValue.str "user1"),
          ("pet_id", DataValue.str "pet1"), ("date_time", DataValue.str "T")]⟩
        [("pet1", "ポチ")] =
      Outcome.ok
        { ID := 0, UserID := "user1", Title := "予約が完了しました",
          Message := "予約が完了しました。見学をお楽しみください。\n予約日時: " ++ "D" ++
            "\nペット名: " ++ "ポチ",
          IsRead := false, Type_ := "reservation", CreatedAt := 3, UpdatedAt := 3 } :=
  reservation_conversion (fun v => if v = "T" then some 7 else none) (fun _ => "D")
    ⟨"reservation", 3, AnyData.map [("user_id", DataValue.str "user1"),
      ("pet_id", DataValue.str "pet1"), ("date_time", DataValue.str "T")]⟩
    [("pet1", "ポチ")] _ "user1" "pet1" "ポチ" 7 rfl rfl (by decide) (by decide) (by decide)
    (Or.inr ⟨"T", by decide, by decide⟩)

/-- C19. Common notification conversion: for a notification whose type is not
`reservation` and whose `Data` is a map with a string `user_id`, `ToNotificationRecord`
returns no error, for any `petNameMap`, and the record with title
"新しい通知が届きました。", type `common`, `IsRead` false, the user ID, and `CreatedAt` and
`UpdatedAt` of the notification. -/
theorem common_conversion (parseRFC3339 : String → Option Nat) (formatMinute : Nat → String)
    (n : Notification) (petNameMap : List (String × String))
    (data : List (String × DataValue)) (userID : String)
    (htype : n.Type_ ≠ "reservation") (hdata : n.Data = AnyData.map data)
    (huser : data.lookup "user_id" = some (DataValue.str userID)) :
    ToNotificationRecord parseRFC3339 formatMinute n petNameMap =
      Outcome.ok
        { ID := 0, UserID := userID, Title := "新しい通知が届きました。",
          Message := "新しい通知です。", IsRead := false, Type_ := "common",
          CreatedAt := n.CreatedAt, UpdatedAt := n.CreatedAt } := by
  unfold ToNotificationRecord
  rw [hdata]
  simp [htype, huser]

/-- Instance of C19: the second case of `TestToNotificationRecord`. -/
theorem common_conversion_witness :
    ToNotificationRecord (fun _ => none) (fun _ => "")
        ⟨"common", 3, AnyData.map [("user_id", DataValue.str "user1")]⟩ [("pet1", "ポチ")] =
      Outcome.ok
        { ID := 0, UserID := "user1", Title := "新しい通知が届きました。",
          Message := "新しい通知です。", IsRead := false, Type_ := "common",
          CreatedAt := 3, UpdatedAt := 3 } :=
  common_conversion (fun _ => none) (fun _ => "")
    ⟨"common", 3, AnyData.map [("user_id", DataValue.str "user1")]⟩ [("pet1", "ポチ")] _ "user1"
    (by decide) rfl (by decide)

/-- C20. `ToNotificationRecord` rejects bad input: a notification whose `Data` is not a
map gets the error "invalid notification data format"; and when `Data` is a map with a
string `user_id`, a string `pet_id` and a `date_time` that is an instant or a string, the
result is an error exactly when the type is `reservation` and either `pet_id` is not a
key of `petNameMap` or `date_time` is a string `time.Parse` rejects; an error carries no
record. -/
theorem conversion_rejects_bad_input (parseRFC3339 : String → Option Nat)
    (formatMinute : Nat → String) (petNameMap : List (String × String)) :
    (∀ (n : Notification) (v : DataValue), n.Data = AnyData.value v →
        ToNotificationRecord parseRFC3339 formatMinute n petNameMap =
          Outcome.error "invalid notification data format") ∧
      (∀ (n : Notification) (data : List (String × DataValue)) (userID petID : String),
        n.Data = AnyData.map data →
        data.lookup "user_id" = some (DataValue.str userID) →
        data.lookup "pet_id" = some (DataValue.str petID) →
        ((∃ t, data.lookup "date_time" = some (DataValue.time t)) ∨
          ∃ v, data.lookup "date_time" = some (DataValue.str v)) →
        ((∃ msg, ToNotificationRecord parseRFC3339 formatMinute n petNameMap =
            Outcome.error msg) ↔
          (n.Type_ = "reservation" ∧
            (petNameMap.lookup petID = none ∨
              ∃ v, data.lookup "date_time" = some (DataValue.str v) ∧
                parseRFC3339 v = none)))) := by
  constructor
  · intro n v hv
    unfold ToNotificationRecord
    rw [hv]
  · intro n data userID petID hdata huser hpet hdt
    unfold ToNotificationRecord
    rw [hdata]
    by_cases htype : n.Type_ = "reservation"
    · cases hname : petNameMap.lookup petID with
      | none => simp [htype, hpet, hname]
      | some petName =>
        rcases hdt with ⟨t, hdt⟩ | ⟨v, hdt⟩
        · simp [htype, hpet, hname, hdt, huser]
        · cases hparse : parseRFC3339 v with
          | none => simp [htype, hpet, hname, hdt, hparse]
          | some t => simp [htype, hpet, hname, hdt, hparse, huser]
    · simp [htype, huser]

/-- Instance of C20: the third and fourth cases of `TestToNotificationRecord` (`Data` is
the string "invalid"; `pet_id` is not in the map). -/
theorem conversion_rejects_bad_input_witness :
    ToNotificationRecord (fun _ => some 7) (fun _ => "D")
        ⟨"reservation", 3, AnyData.value (DataValue.str "invalid")⟩ [("pet1", "ポチ")] =
        Outcome.error "invalid notification data format" ∧
      ∃ msg, ToNotificationRecord (fun _ => some 7) (fun _ => "D")
        ⟨"reservation", 3, AnyData.map [("user_id", DataValue.str "user1"),
          ("pet_id", DataValue.str "nonexistent"), ("date_time", DataValue.str "T")]⟩
        [("pet1", "ポチ")] = Outcome.error msg :=
  ⟨(conversion_rejects_bad_input (fun _ => some 7) (fun _ => "D") [("pet1", "ポチ")]).1
      ⟨"reservation", 3, AnyData.value (DataValue.str "invalid")⟩ (DataValue.str "invalid") rfl,
    ((conversion_rejects_bad_input (fun _ => some 7) (fun _ => "D") [("pet1", "ポチ")]).2
      ⟨"reservation", 3, AnyData.map [("user_id", DataValue.str "user1"),
        ("pet_id", DataValue.str "nonexistent"), ("date_time", DataValue.str "T")]⟩
      _ "user1" "nonexistent" rfl (by decide) (by decide)
      (Or.inr ⟨"T", by decide⟩)).mpr ⟨rfl, Or.inl (by decide)⟩⟩

/-- C21. For every reservation event `e`, `NewReservationNotification(e)` has type
`reservation`, the `CreatedAt` of `e`, and as `Data` a map whose keys are exactly
`user_id`, `pet_id` and `date_time`, bound to the UserID, PetID and DateTime of `e`. -/
theorem newReservationNotification_fields (e : ReservationEvent) :
    (NewReservationNotification e).Type_ = "reservation" ∧
      (NewReservationNotification e).CreatedAt = e.CreatedAt ∧
      ∃ data, (NewReservationNotification e).Data = AnyData.map data ∧
        data.map Prod.fst = ["user_id", "pet_id", "date_time"] ∧
        data.lookup "user_id" = some (DataValue.str e.UserID) ∧
        data.lookup "pet_id" = some (DataValue.str e.PetID) ∧
        data.lookup "date_time" = some (DataValue.time e.DateTime) :=
  ⟨rfl, rfl, _, rfl, rfl, rfl, rfl, rfl⟩

/-- Counterexample to C23: the payload has one element of type `common`; the
notification returned has type `reservation`. -/
theorem token_parsing_counterexample :
    generateNotificationsFromTaskToken sampleUnmarshal commonToken =
        .ok [{ Type_ := "reservation", CreatedAt := 1, Data := AnyData.map [("user_id", DataValue.str "u"), ("pet_id", DataValue.str "p"), ("date_time", DataValue.time 2)] }] ∧
      sampleUnmarshal commonToken =
        .ok { Notifications := [{ Type_ := "common", CreatedAt := 1, Data := { UserID := "u", DateTime := 2, PetID := "p" } }] } ∧
      "reservation" ≠ "common" :=
  ⟨rfl, rfl, by decide⟩

/-- C23, amended. For every task token `json.Unmarshal` decodes into the payload struct,
`generateNotificationsFromTaskToken` returns no error and one notification per decoded
element, in the same order, each of type `reservation` whatever the type of the
element, with the `created_at` of the element and its `user_id`, `pet_id` and
`date_time` as data; for every task token `json.Unmarshal` rejects it returns an error
and no notifications. -/
theorem token_parsing (unmarshal : String → Except String TokenInput) (taskToken : String) :
    (∀ input, unmarshal taskToken = .ok input →
        ∃ ns, generateNotificationsFromTaskToken unmarshal taskToken = .ok ns ∧
          List.Forall₂ (fun (el : TokenNotification) (n : Notification) =>
            n.Type_ = "reservation" ∧ n.CreatedAt = el.CreatedAt ∧
              n.Data = AnyData.map [("user_id", DataValue.str el.Data.UserID),
                ("pet_id", DataValue.str el.Data.PetID),
                ("date_time", DataValue.time el.Data.DateTime)])
            input.Notifications ns) ∧
      (∀ e, unmarshal taskToken = .error e →
        generateNotificationsFromTaskToken unmarshal taskToken =
          .error ("failed to parse task token: " ++ e)) := by
  constructor
  · intro input h
    refine ⟨_, by rw [generateNotificationsFromTaskToken, h], ?_⟩
    rw [List.forall₂_map_right_iff]
    exact List.forall₂_same.mpr (fun _ _ => ⟨rfl, rfl, rfl⟩)
  · intro e h
    rw [generateNotificationsFromTaskToken, h]

/-- Instance of C23 (amended): a text `json.Unmarshal` rejects gives an error. -/
theorem token_parsing_witness :
    generateNotificationsFromTaskToken sampleUnmarshal "not json" =
      .error ("failed to parse task token: " ++ "invalid character") :=
  (token_parsing sampleUnmarshal "not json").2 "invalid character" (by rfl)

/-- Evaluation for C26: three records, the `INSERT` of the second fails.  The call
returns an error and nothing is committed, but the log of transaction 0 ends with the
failed `INSERT`: no `Rollback` is called and the transaction stays open. -/
theorem createNotifications_no_rollback :
    (NotificationRepositoryImpl.CreateNotifications (notifWorld (fun i => i == 1)) emptyNotifDB
        [sampleRecord "a", sampleRecord "b", sampleRecord "c"]).1.log =
        [NotifOp.beginTx 0, NotifOp.insert (Handle.tx 0) (sampleRecord "a"),
          NotifOp.insert (Handle.tx 0) (sampleRecord "b")] ∧
      (NotificationRepositoryImpl.CreateNotifications (notifWorld (fun i => i == 1)) emptyNotifDB
        [sampleRecord "a", sampleRecord "b", sampleRecord "c"]).1.rows = [] ∧
      (NotificationRepositoryImpl.CreateNotifications (notifWorld (fun i => i == 1)) emptyNotifDB
        [sampleRecord "a", sampleRecord "b", sampleRecord "c"]).2 =
        .error "failed to create notification: insert failed" :=
  ⟨by decide, by decide, rfl⟩

theorem toNotificationRecord_new (parseRFC3339 : String → Option Nat)
    (formatMinute : Nat → String) (e : ReservationEvent) (petNameMap : List (String × String)) :
    ToNotificationRecord parseRFC3339 formatMinute (NewReservationNotification e) petNameMap =
      match petNameMap.lookup e.PetID with
      | none => Outcome.error "pet_id not found in petNameMap"
      | some petName =>
        Outcome.ok
          { ID := 0, UserID := e.UserID, Title := "予約が完了しました",
            Message := "予約が完了しました。見学をお楽しみください。\n予約日時: " ++
              formatMinute e.DateTime ++ "\nペット名: " ++ petName,
            IsRead := false, Type_ := "reservation", CreatedAt := e.CreatedAt,
            UpdatedAt := e.CreatedAt } := by
  have h1 : List.lookup "pet_id" [("user_id", DataValue.str e.UserID),
      ("pet_id", DataValue.str e.PetID), ("date_time", DataValue.time e.DateTime)] =
      some (DataValue.str e.PetID) := rfl
  have h2 : List.lookup "date_time" [("user_id", DataValue.str e.UserID),
      ("pet_id", DataValue.str e.PetID), ("date_time", DataValue.time e.DateTime)] =
      some (DataValue.time e.DateTime) := rfl
  have h3 : List.lookup "user_id" [("user_id", DataValue.str e.UserID),
      ("pet_id", DataValue.str e.PetID), ("date_time", DataValue.time e.DateTime)] =
      some (DataValue.str e.UserID) := rfl
  unfold ToNotificationRecord NewReservationNotification
  simp only [if_true, h1, h2, h3]

/-- C28. Conversion of engine-built notifications is total: for every reservation event
`e` and every `petNameMap`, `ToNotificationRecord` of `NewReservationNotification(e)`
does not panic; it returns an error exactly when `e.PetID` is not a key of
`petNameMap`, and otherwise a record with the UserID and the CreatedAt of `e`. -/
theorem engine_notification_conversion_total (parseRFC3339 : String → Option Nat)
    (formatMinute : Nat → String) (e : ReservationEvent) (petNameMap : List (String × String)) :
    ToNotificationRecord parseRFC3339 formatMinute (NewReservationNotification e) petNameMap ≠
        Outcome.panicked ∧
      ((∃ msg, ToNotificationRecord parseRFC3339 formatMinute (NewReservationNotification e)
          petNameMap = Outcome.error msg) ↔ petNameMap.lookup e.PetID = none) ∧
      (∀ petName, petNameMap.lookup e.PetID = some petName →
        ∃ record, ToNotificationRecord parseRFC3339 formatMinute (NewReservationNotification e)
            petNameMap = Outcome.ok record ∧
          record.UserID = e.UserID ∧ record.CreatedAt = e.CreatedAt) := by
  rw [toNotificationRecord_new]
  cases h : petNameMap.lookup e.PetID with
  | none => simp
  | some petName => simp

theorem processReservation_log_eq (e : ItemEnv) (db : DB) (r : Reservation) :
    (processReservation e db r).1.log = db.log ++ itemLogOf e db r := by
  unfold processReservation BeginTx itemLogOf
  cases h1 : e.beginErr
  · unfold CheckExistingReservation
    cases h2 : e.checkErr
    · unfold UpdateStatus
      have hany : db.rows.any (fun x => decide (x.ReservationID = r.ReservationID)) =
          !decide ((db.rows.filter (fun x => x.ReservationID = r.ReservationID)).length = 0) := by
        by_cases h7 : (db.rows.filter (fun x => x.ReservationID = r.ReservationID)).length = 0
        · rw [(filter_length_eq_zero_iff_any _ _).mp h7]; simp [h7]
        · have : db.rows.any (fun x => decide (x.ReservationID = r.ReservationID)) ≠ false :=
            fun h => h7 ((filter_length_eq_zero_iff_any _ _).mpr h)
          simp [h7, eq_true_of_ne_false this]
      rw [hany]
      cases hex : db.rows.any (futureConfirmed e.dbNow r.PetID) <;>
      cases h3 : e.execErr <;> cases h4 : e.rowsAffectedErr <;>
      by_cases h7 : (db.rows.filter (fun x => x.ReservationID = r.ReservationID)).length = 0 <;>
      cases h5 : e.commitErr <;>
      simp [h7, Rollback, Commit, applyWrites, resolvedStatus, hex]
    · simp [Rollback]
  · simp

theorem itemLogOf_shape (e : ItemEnv) (db : DB) (r : Reservation) :
    ItemLog (itemLogOf e db r) := by
  unfold itemLogOf
  split
  · exact ItemLog.notBegun
  · split
    · exact ItemLog.checkFailed _ _ _
    · split
      · exact ItemLog.updateFailed _ _ _ _ _
      · exact ItemLog.commitCalled _ _ _ _ _ _

theorem processReservation_log (e : ItemEnv) (db : DB) (r : Reservation) :
    ∃ seg, (processReservation e db r).1.log = db.log ++ seg ∧ ItemLog seg :=
  ⟨_, processReservation_log_eq e db r, itemLogOf_shape e db r⟩

theorem processLoop_log (item : Nat → ItemEnv) (rs : List Reservation) :
    ∀ (i : Nat) (db : DB) (events : List ReservationEvent),
      ∃ segs : List (List Op),
        (processLoop item i rs db events).1.log = db.log ++ segs.flatten ∧
        segs.length = rs.length ∧ ∀ seg ∈ segs, ItemLog seg := by
  induction rs with
  | nil => intro i db events; exact ⟨[], by simp [processLoop], rfl, by simp⟩
  | cons b rest ih =>
    intro i db events
    obtain ⟨seg, hseg, hshape⟩ := processReservation_log (item i) db b
    have key : ∀ (db1 : DB) (ev : List ReservationEvent), db1.log = db.log ++ seg →
        ∃ segs : List (List Op),
          (processLoop item (i + 1) rest db1 ev).1.log = db.log ++ segs.flatten ∧
          segs.length = (b :: rest).length ∧ ∀ s ∈ segs, ItemLog s := by
      intro db1 ev hdb1
      obtain ⟨segs, h1, h2, h3⟩ := ih (i + 1) db1 ev
      refine ⟨seg :: segs, by rw [h1, hdb1]; simp, by simp [h2], ?_⟩
      intro s hs
      rcases List.mem_cons.mp hs with rfl | hs
      · exact hshape
      · exact h3 s hs
    rw [processLoop]
    split
    · next db1 ev heq => rw [heq] at hseg; exact key db1 _ hseg
    · next db1 heq => rw [heq] at hseg; exact key db1 _ hseg

theorem ItemLog.counts {seg : List Op} (h : ItemLog seg) :
    seg.countP Op.isBegin ≤ 1 ∧ seg.countP Op.isUpdate ≤ 1 := by
  cases h <;> simp [List.countP_cons, Op.isBegin, Op.isUpdate]

theorem ItemLog.txScan_append {seg : List Op} (h : ItemLog seg) (rest : List Op) :
    txScan (seg ++ rest) none = txScan rest none := by
  cases h <;> simp [txScan]

theorem txScan_join (segs : List (List Op)) (h : ∀ seg ∈ segs, ItemLog seg) :
    txScan segs.flatten none = true := by
  induction segs with
  | nil => rfl
  | cons seg rest ih =>
    rw [List.flatten_cons, (h seg (List.mem_cons_self _ _)).txScan_append]
    exact ih (fun s hs => h s (List.mem_cons_of_mem _ hs))

/-- C24. Transactions are per reservation and never nested: for every table and every
failure pattern, the log `processReservationsByStatus("pending")` adds is the initial
`SELECT` followed by one piece per backlog reservation processed, each piece holding at
most one `BEGIN` and at most one `UPDATE` and, when it begins a transaction, ending it
by `Rollback` or `Commit`; so no transaction is begun while another is open and none is
open at the end. -/
theorem transactions_per_reservation (env : Env) (db : DB) :
    ∃ segs : List (List Op),
      (processReservationsByStatus env db "pending").1.log =
          db.log ++ Op.selectByStatus Handle.pool "pending" :: segs.flatten ∧
        segs.length ≤ (backlog db.rows "pending").length ∧
        (∀ seg ∈ segs, ItemLog seg ∧ seg.countP Op.isBegin ≤ 1 ∧ seg.countP Op.isUpdate ≤ 1) ∧
        txScan (Op.selectByStatus Handle.pool "pending" :: segs.flatten) none = true := by
  cases hf : env.fetchErr
  · rw [processReservationsByStatus_ok env db "pending" hf]
    obtain ⟨segs, h1, h2, h3⟩ := processLoop_log env.item (backlog db.rows "pending") 0
      { db with log := db.log ++ [Op.selectByStatus Handle.pool "pending"] } []
    refine ⟨segs, by rw [h1]; simp, by rw [h2], fun seg hs => ⟨h3 seg hs, (h3 seg hs).counts⟩, ?_⟩
    rw [txScan]
    exact txScan_join segs h3
  · rw [processReservationsByStatus_err env db "pending" hf]
    exact ⟨[], by simp, by simp, by simp, rfl⟩

theorem processLoop_drained (item : Nat → ItemEnv) (hok : ∀ j, noFailure (item j) = true)
    (rs : List Reservation) :
    ∀ (i : Nat) (db : DB) (events : List ReservationEvent),
      (∀ r ∈ rs, r.ReservationID ∈ db.rows.map (fun x => x.ReservationID)) →
      ∀ x ∈ (processLoop item i rs db events).1.rows,
        (∃ r ∈ rs, r.ReservationID = x.ReservationID) →
        x.Status = "confirmed" ∨ x.Status = "cancelled" := by
  induction rs with
  | nil => intro i db events _ x _ hex; obtain ⟨r, hr, _⟩ := hex; cases hr
  | cons b rest ih =>
    intro i db events hin
    have hc : itemCommits (item i) db.rows b = true := by
      rw [itemCommits_eq (item i) db.rows b (hin b (List.mem_cons_self _ _))]; exact hok i
    have hrows := (processReservation_commit (item i) db b hc).1
    have hids := ids_of_frame (processReservation_frame (item i) db b)
    have key : ∀ (db1 : DB) (ev : List ReservationEvent),
        db1.rows = db.rows.map
          (applyWrite ⟨b.ReservationID, resolvedStatus (item i) db.rows b, (item i).appNow⟩) →
        ∀ x ∈ (processLoop item (i + 1) rest db1 ev).1.rows,
          (∃ r ∈ b :: rest, r.ReservationID = x.ReservationID) →
          x.Status = "confirmed" ∨ x.Status = "cancelled" := by
      intro db1 ev hdb1 x hx hex
      have hin1 : ∀ r ∈ rest, r.ReservationID ∈ db1.rows.map (fun x => x.ReservationID) := by
        intro r hr
        have : db1.rows.map (fun x => x.ReservationID) =
            db.rows.map (fun x => x.ReservationID) := by
          rw [hdb1, List.map_map]
          apply List.map_congr_left
          intro a _
          exact applyWrite_id _ a
        rw [this]; exact hin r (List.mem_cons_of_mem _ hr)
      by_cases hrest : ∃ r ∈ rest, r.ReservationID = x.ReservationID
      · exact ih (i + 1) db1 ev hin1 x hx hrest
      · obtain ⟨r, hr, hid⟩ := hex
        have hb : b.ReservationID = x.ReservationID := by
          rcases List.mem_cons.mp hr with rfl | hr
          · exact hid
          · exact absurd ⟨r, hr, hid⟩ hrest
        obtain ⟨f, hf1, hf2⟩ := processLoop_rows_map item rest (i + 1) db1 ev
        rw [hf1] at hx
        obtain ⟨x1, hx1, rfl⟩ := List.mem_map.mp hx
        have hx1id : x1.ReservationID = b.ReservationID := by
          have := congrArg Prod.fst (hf2 x1).1
          exact this.symm.trans hb.symm
        have hx1st : x1.Status = "confirmed" ∨ x1.Status = "cancelled" := by
          rw [hdb1] at hx1
          obtain ⟨x0, _, rfl⟩ := List.mem_map.mp hx1
          have hx0 : x0.ReservationID = b.ReservationID := by
            rw [← hx1id, applyWrite_id]
          have : (applyWrite ⟨b.ReservationID, resolvedStatus (item i) db.rows b,
              (item i).appNow⟩ x0).Status = resolvedStatus (item i) db.rows b := by
            simp [applyWrite, hx0]
          rw [this]
          exact resolvedStatus_cases _ _ _
        rcases (hf2 x1).2.2 with h | h
        · rw [h]; exact hx1st
        · exact h
    intro x hx hex
    rw [processLoop] at hx
    split at hx
    · next db1 ev heq => rw [heq] at hrows; exact key db1 _ hrows x hx hex
    · next db1 heq => rw [heq] at hrows; exact key db1 _ hrows x hx hex

theorem committedEvents_length (item : Nat → ItemEnv) (hok : ∀ j, noFailure (item j) = true)
    (rs : List Reservation) : (committedEvents item rs).length = rs.length := by
  have : rs.enum.filter (fun p => noFailure (item p.1)) = rs.enum := by
    rw [List.filter_eq_self]
    intro p _
    exact hok p.1
  simp [committedEvents, this]

/-- C27. A failure-free run drains the backlog: when no store operation fails, the table
after `processReservationsByStatus("pending")` is the table before mapped row by row,
each row keeping its ID and its columns other than status and `updated_at`, every row
that was pending has status confirmed or cancelled, and the number of events returned
is the number of rows that were pending. -/
theorem failure_free_run_drains (env : Env) (db : DB) (hfetch : env.fetchErr = false)
    (hok : ∀ j, noFailure (env.item j) = true) :
    ∃ (f : Reservation → Reservation) (events : List ReservationEvent),
      (processReservationsByStatus env db "pending").1.rows = db.rows.map f ∧
        (∀ r ∈ db.rows, frame (f r) = frame r ∧
          (r.Status = "pending" → (f r).Status = "confirmed" ∨ (f r).Status = "cancelled")) ∧
        (processReservationsByStatus env db "pending").2 = .ok events ∧
        events.length = (db.rows.filter (fun r => r.Status = "pending")).length := by
  obtain ⟨f, hf1, hf2⟩ := processLoop_rows_map env.item (backlog db.rows "pending") 0
    { db with log := db.log ++ [Op.selectByStatus Handle.pool "pending"] } []
  have hrows : (processReservationsByStatus env db "pending").1.rows = db.rows.map f := by
    rw [processReservationsByStatus_ok env db "pending" hfetch]; exact hf1
  refine ⟨f, committedEvents env.item (backlog db.rows "pending"), hrows, ?_,
    processReservationsByStatus_events env db "pending" hfetch, ?_⟩
  · intro r hr
    refine ⟨(hf2 r).1, fun hp => ?_⟩
    have hmem : f r ∈ (processLoop env.item 0 (backlog db.rows "pending")
        { db with log := db.log ++ [Op.selectByStatus Handle.pool "pending"] } []).1.rows := by
      rw [hf1]; exact List.mem_map_of_mem _ hr
    refine processLoop_drained env.item hok _ 0
      { db with log := db.log ++ [Op.selectByStatus Handle.pool "pending"] } []
      (backlog_ids_mem db.rows "pending") (f r) hmem ⟨r, mem_backlog.mpr ⟨hr, hp⟩, ?_⟩
    exact (congrArg Prod.fst (hf2 r).1).symm
  · rw [committedEvents_length env.item hok]
    unfold backlog
    exact (List.perm_insertionSort byDateTime _).length_eq

/-- Instance of C27: the sample table, clock at 5, nothing fails: three events. -/
theorem failure_free_run_drains_witness :
    ∃ (f : Reservation → Reservation) (events : List ReservationEvent),
      (processReservationsByStatus ⟨false, fun _ => calm 5⟩ ⟨sampleRows, 0, []⟩ "pending").1.rows =
          sampleRows.map f ∧
        (∀ r ∈ sampleRows, frame (f r) = frame r ∧
          (r.Status = "pending" → (f r).Status = "confirmed" ∨ (f r).Status = "cancelled")) ∧
        (processReservationsByStatus ⟨false, fun _ => calm 5⟩ ⟨sampleRows, 0, []⟩ "pending").2 =
          .ok events ∧
        events.length = 3 :=
  failure_free_run_drains ⟨false, fun _ => calm 5⟩ ⟨sampleRows, 0, []⟩ rfl (fun _ => rfl)

theorem petIDOf_eq_some {n : Notification} {p : String} (h : petIDOf n = some p) :
    ∃ data, n.Data = AnyData.map data ∧ data.lookup "pet_id" = some (DataValue.str p) := by
  unfold petIDOf at h
  split at h
  · next data hd =>
    split at h
    · next q hq => cases h; exact ⟨data, hd, hq⟩
    · cases h
  · cases h

theorem petIDOf_of_lookup {n : Notification} {data : List (String × DataValue)} {p : String}
    (hd : n.Data = AnyData.map data) (hp : data.lookup "pet_id" = some (DataValue.str p)) :
    petIDOf n = some p := by
  simp [petIDOf, hd, hp]

theorem collectPetIDs_ok (ns : List Notification) :
    ∀ petIDs : List String, (∀ n ∈ ns, ∃ p, petIDOf n = some p) →
      NotificationBatchService.collectPetIDs ns petIDs =
        .ok ((ns.filterMap petIDOf).foldl addPetID petIDs) := by
  induction ns with
  | nil => intro petIDs _; rfl
  | cons n rest ih =>
    intro petIDs h
    obtain ⟨p, hp⟩ := h n (List.mem_cons_self _ _)
    obtain ⟨data, hd, hl⟩ := petIDOf_eq_some hp
    have hrest := fun acc => ih acc (fun m hm => h m (List.mem_cons_of_mem _ hm))
    rw [NotificationBatchService.collectPetIDs, hd]
    simp only [hl]
    rw [List.filterMap_cons, hp, List.foldl_cons]
    by_cases hc : petIDs.contains p = true
    · simp only [hc, if_true, addPetID]
      exact hrest petIDs
    · simp only [hc, addPetID]
      exact hrest (petIDs ++ [p])

theorem collectPetIDs_mem (ns : List Notification) :
    ∀ (petIDs r : List String), NotificationBatchService.collectPetIDs ns petIDs = .ok r →
      ∀ n ∈ ns, ∃ p, petIDOf n = some p := by
  induction ns with
  | nil => intro _ _ _ n hn; cases hn
  | cons m rest ih =>
    intro petIDs r h n hn
    rw [NotificationBatchService.collectPetIDs] at h
    split at h
    · cases h
    · next data hd =>
      split at h
      · next p hl =>
        have hm : petIDOf m = some p := petIDOf_of_lookup hd hl
        rcases List.mem_cons.mp hn with rfl | hn
        · exact ⟨p, hm⟩
        · split at h
          · exact ih _ _ h n hn
          · exact ih _ _ h n hn
      · cases h

theorem foldl_addPetID_spec (full : List String) (suf : List String) :
    ∀ (pre acc : List String), full = pre ++ suf → acc.Nodup → (∀ p, p ∈ acc ↔ p ∈ pre) →
      acc.Pairwise (fun a b => full.indexOf a < full.indexOf b) →
      (suf.foldl addPetID acc).Nodup ∧ (∀ p, p ∈ suf.foldl addPetID acc ↔ p ∈ full) ∧
        (suf.foldl addPetID acc).Pairwise (fun a b => full.indexOf a < full.indexOf b) := by
  induction suf with
  | nil =>
    intro pre acc hfull hnd hmem hpw
    simp only [List.append_nil] at hfull
    subst hfull
    exact ⟨hnd, hmem, hpw⟩
  | cons a t ih =>
    intro pre acc hfull hnd hmem hpw
    have hfull' : full = (pre ++ [a]) ++ t := by rw [hfull]; simp
    rw [List.foldl_cons]
    by_cases hc : a ∈ acc
    · have hadd : addPetID acc a = acc := by simp [addPetID, hc]
      rw [hadd]
      refine ih (pre ++ [a]) acc hfull' hnd (fun p => ?_) hpw
      rw [hmem p, List.mem_append, List.mem_singleton]
      constructor
      · exact Or.inl
      · rintro (h | h)
        · exact h
        · rw [h]; exact (hmem a).mp hc
    · have hadd : addPetID acc a = acc ++ [a] := by simp [addPetID, hc]
      rw [hadd]
      have hapre : a ∉ pre := fun h => hc ((hmem a).mpr h)
      refine ih (pre ++ [a]) (acc ++ [a]) hfull' ?_ (fun p => ?_) ?_
      · rw [List.nodup_append]
        refine ⟨hnd, List.nodup_singleton a, ?_⟩
        intro x hx hx'
        rw [List.mem_singleton] at hx'
        exact hc (hx' ▸ hx)
      · simp only [List.mem_append, List.mem_singleton, hmem p]
      · rw [List.pairwise_append]
        refine ⟨hpw, List.pairwise_singleton _ _, ?_⟩
        intro x hx y hy
        rw [List.mem_singleton] at hy
        subst hy
        have hxpre : x ∈ pre := (hmem x).mp hx
        rw [hfull, List.indexOf_append_of_mem hxpre, List.indexOf_append_of_not_mem hapre,
          List.indexOf_cons_self]
        have := List.indexOf_lt_length.mpr hxpre
        omega

theorem lookupPetNames_spec (env : NotifEnv) (ids : List String) :
    ∀ (db : NotifDB) (m : List (String × String)),
      ∃ calls, (NotificationBatchService.lookupPetNames env ids db m).1.lookups =
          db.lookups ++ calls ∧
        calls <+: ids ∧
        (NotificationBatchService.lookupPetNames env ids db m).1.creates = db.creates ∧
        ((∀ p ∈ ids, ∃ name, env.getName p = .ok name) → calls = ids) ∧
        (∀ m1, (NotificationBatchService.lookupPetNames env ids db m).2 = .ok m1 →
          calls = ids ∧
          ∀ k, (∃ v, m1.lookup k = some v) ↔ (k ∈ ids ∨ ∃ v, m.lookup k = some v)) := by
  induction ids with
  | nil =>
    intro db m
    refine ⟨[], by simp [NotificationBatchService.lookupPetNames], List.prefix_refl _, rfl,
      fun _ => rfl, ?_⟩
    intro m1 h
    simp only [NotificationBatchService.lookupPetNames] at h
    cases h
    exact ⟨rfl, fun k => by simp⟩
  | cons p rest ih =>
    intro db m
    rw [NotificationBatchService.lookupPetNames, PetRepositoryImpl.GetNameByID]
    cases hg : env.getName p with
    | error e =>
      refine ⟨[p], by simp, ?_, rfl, ?_, ?_⟩
      · exact ⟨rest, rfl⟩
      · intro hall
        obtain ⟨name, hn⟩ := hall p (List.mem_cons_self _ _)
        rw [hg] at hn; cases hn
      · intro m1 h; cases h
    | ok name =>
      simp only
      obtain ⟨calls, h1, h2, h3, h4, h5⟩ :=
        ih { db with lookups := db.lookups ++ [p] } ((p, name) :: m)
      refine ⟨p :: calls, by rw [h1]; simp, ?_, h3, ?_, ?_⟩
      · obtain ⟨t, ht⟩ := h2
        exact ⟨t, by rw [← ht]; simp⟩
      · intro hall
        rw [h4 (fun q hq => hall q (List.mem_cons_of_mem _ hq))]
      · intro m1 hm1
        obtain ⟨hc, hk⟩ := h5 m1 hm1
        refine ⟨by rw [hc], fun k => ?_⟩
        rw [hk k, List.mem_cons]
        by_cases hkp : k = p
        · subst hkp
          simp
        · have : (k == p) = false := by simpa using hkp
          simp [List.lookup, this, hkp]

theorem lookupPetNames_stops (env : NotifEnv) (ids : List String) :
    ∀ (db : NotifDB) (m : List (String × String)) (calls : List String),
      (NotificationBatchService.lookupPetNames env ids db m).1.lookups = db.lookups ++ calls →
      ∀ p ∈ calls, (∃ e, env.getName p = .error e) → calls.getLast? = some p := by
  induction ids with
  | nil =>
    intro db m calls h p hp _
    simp only [NotificationBatchService.lookupPetNames] at h
    have : calls = [] := by simpa using h
    rw [this] at hp
    cases hp
  | cons q rest ih =>
    intro db m calls h p hp hfail
    rw [NotificationBatchService.lookupPetNames, PetRepositoryImpl.GetNameByID] at h
    cases hg : env.getName q with
    | error e =>
      rw [hg] at h
      simp only at h
      have hcalls : calls = [q] := (List.append_cancel_left h).symm
      rw [hcalls] at hp ⊢
      rw [List.mem_singleton] at hp
      rw [hp]
      rfl
    | ok name =>
      rw [hg] at h
      simp only at h
      obtain ⟨calls0, h0, _⟩ := lookupPetNames_spec env rest
        { db with lookups := db.lookups ++ [q] } ((q, name) :: m)
      have hcalls : calls = q :: calls0 := by
        rw [h0] at h
        simp only [List.append_assoc, List.singleton_append] at h
        exact (List.append_cancel_left h).symm
      have hp0 : p ∈ calls0 := by
        rw [hcalls] at hp
        rcases List.mem_cons.mp hp with rfl | hp
        · obtain ⟨e, he⟩ := hfail
          rw [hg] at he
          cases he
        · exact hp
      have hlast := ih { db with lookups := db.lookups ++ [q] } ((q, name) :: m) calls0 h0
        p hp0 hfail
      rw [hcalls]
      cases calls0 with
      | nil => cases hp0
      | cons c t => rw [List.getLast?_cons_cons]; exact hlast

/-- Counterexample to C25: two notifications for pets p1 and p2, the lookup of p1 fails:
`GetNameByID` is called for p1 only, never for p2. -/
theorem pet_lookup_counterexample :
    (NotificationBatchService.getPetNameMap
        { notifWorld (fun _ => false) with getName := fun p => if p = "p1" then .error "no rows" else .ok "TestPet" }
        emptyNotifDB [sampleNotification "u1" "p1", sampleNotification "u2" "p2"]).1.lookups =
        ["p1"] ∧
      [sampleNotification "u1" "p1", sampleNotification "u2" "p2"].filterMap petIDOf =
        ["p1", "p2"] :=
  ⟨by decide, by decide⟩

/-- C25, amended. Pet names are looked up without repetition: for every list of
notifications whose `Data` is a map with a string `pet_id`, the `GetNameByID` calls of
`getPetNameMap` are for pet IDs of the list, no pet ID twice, in the order of their
first occurrence in the list; a lookup that fails is the last call; and when every
lookup succeeds there is a call for each pet ID of the list. -/
theorem pet_lookup_no_repetition (env : NotifEnv) (db : NotifDB) (ns : List Notification)
    (hmap : ∀ n ∈ ns, ∃ data p, n.Data = AnyData.map data ∧
      data.lookup "pet_id" = some (DataValue.str p)) :
    ∃ calls, (NotificationBatchService.getPetNameMap env db ns).1.lookups =
        db.lookups ++ calls ∧
      calls.Nodup ∧ (∀ p ∈ calls, p ∈ ns.filterMap petIDOf) ∧
      calls.Pairwise (fun a b =>
        (ns.filterMap petIDOf).indexOf a < (ns.filterMap petIDOf).indexOf b) ∧
      (∀ p ∈ calls, (∃ e, env.getName p = .error e) → calls.getLast? = some p) ∧
      ((∀ p ∈ ns.filterMap petIDOf, ∃ name, env.getName p = .ok name) →
        ∀ p ∈ ns.filterMap petIDOf, p ∈ calls) := by
  have hsome : ∀ n ∈ ns, ∃ p, petIDOf n = some p := by
    intro n hn
    obtain ⟨data, p, hd, hp⟩ := hmap n hn
    exact ⟨p, petIDOf_of_lookup hd hp⟩
  obtain ⟨hnd, hmem, hpw⟩ := foldl_addPetID_spec (ns.filterMap petIDOf) (ns.filterMap petIDOf)
    [] [] rfl List.nodup_nil (fun p => Iff.rfl) List.Pairwise.nil
  rw [NotificationBatchService.getPetNameMap, collectPetIDs_ok ns [] hsome]
  simp only
  obtain ⟨calls, h1, h2, _, h4, _⟩ := lookupPetNames_spec env
    ((ns.filterMap petIDOf).foldl addPetID []) db []
  refine ⟨calls, h1, hnd.sublist h2.sublist, ?_, hpw.sublist h2.sublist,
    lookupPetNames_stops env _ db [] calls h1, ?_⟩
  · intro p hp
    exact (hmem p).mp (h2.subset hp)
  · intro hall p hp
    rw [h4 (fun q hq => hall q ((hmem q).mp hq))]
    exact (hmem p).mpr hp

/-- Instance of C25 (amended): three notifications for pets p1, p2, p1, every lookup
succeeding: the calls are without repetition. -/
theorem pet_lookup_no_repetition_witness :
    ∃ calls, (NotificationBatchService.getPetNameMap (notifWorld (fun _ => false)) emptyNotifDB
        [sampleNotification "u1" "p1", sampleNotification "u2" "p2",
          sampleNotification "u3" "p1"]).1.lookups = [] ++ calls ∧
      calls.Nodup :=
  (pet_lookup_no_repetition (notifWorld (fun _ => false)) emptyNotifDB
    [sampleNotification "u1" "p1", sampleNotification "u2" "p2", sampleNotification "u3" "p1"]
    (by
      intro n hn
      simp only [List.mem_cons, List.mem_singleton, List.not_mem_nil, or_false] at hn
      rcases hn with rfl | rfl | rfl <;> exact ⟨_, _, rfl, rfl⟩)).imp
    (fun _ h => ⟨h.1, h.2.1⟩)

theorem getPetNameMap_ok {env : NotifEnv} {db db1 : NotifDB} {ns : List Notification}
    {m : List (String × String)}
    (h : NotificationBatchService.getPetNameMap env db ns = (db1, .ok m)) :
    (∀ n ∈ ns, ∃ p, petIDOf n = some p) ∧
      (∀ k, (∃ name, m.lookup k = some name) ↔ k ∈ ns.filterMap petIDOf) ∧
      db1.lookups = db.lookups ++ (ns.filterMap petIDOf).foldl addPetID [] ∧
      db1.creates = db.creates := by
  unfold NotificationBatchService.getPetNameMap at h
  cases hc : NotificationBatchService.collectPetIDs ns [] with
  | error e => rw [hc] at h; cases h
  | ok ids =>
    rw [hc] at h
    simp only at h
    have hsome := collectPetIDs_mem ns [] ids hc
    have hids : ids = (ns.filterMap petIDOf).foldl addPetID [] := by
      have := collectPetIDs_ok ns [] hsome
      rw [hc] at this
      cases this
      rfl
    obtain ⟨_, hmem, _⟩ := foldl_addPetID_spec (ns.filterMap petIDOf) (ns.filterMap petIDOf)
      [] [] rfl List.nodup_nil (fun p => Iff.rfl) List.Pairwise.nil
    obtain ⟨calls, h1, _, h3, _, h5⟩ := lookupPetNames_spec env ids db []
    rw [h] at h1 h3 h5
    obtain ⟨hcalls, hkeys⟩ := h5 m rfl
    refine ⟨hsome, fun k => ?_, by rw [h1, hcalls, hids], h3⟩
    rw [hkeys k, hids, hmem k]
    simp

theorem toNotificationRecord_pet_found (parseRFC3339 : String → Option Nat)
    (formatMinute : Nat → String) (n : Notification) (m : List (String × String))
    (data : List (String × DataValue)) (p petName : String)
    (hd : n.Data = AnyData.map data) (hp : data.lookup "pet_id" = some (DataValue.str p))
    (hname : m.lookup p = some petName) :
    ToNotificationRecord parseRFC3339 formatMinute n m ≠
      Outcome.error "pet_id not found in petNameMap" := by
  unfold ToNotificationRecord
  rw [hd]
  simp only [hp, hname]
  split
  · split
    · next msg heq =>
      intro h
      injection h with h
      subst h
      split at heq
      · cases heq
      · split at heq
        · cases heq
        · simp at heq
      · simp at heq
    · split <;> simp
  · split <;> simp

/-- C29. Inside `NotificationBatchService.Run` the error "pet_id not found in
petNameMap" cannot occur: whenever `getPetNameMap` succeeds on a list of notifications,
every notification of the list has a string `pet_id`, the keys of the map returned are
exactly the pet IDs of the list, and `ToNotificationRecord` with that map does not
return that error for any notification of the list. -/
theorem pet_not_found_unreachable (env : NotifEnv) (db db1 : NotifDB)
    (ns : List Notification) (m : List (String × String))
    (h : NotificationBatchService.getPetNameMap env db ns = (db1, .ok m)) :
    (∀ k, (∃ name, m.lookup k = some name) ↔ k ∈ ns.filterMap petIDOf) ∧
      (∀ n ∈ ns, ∃ data p, n.Data = AnyData.map data ∧
        data.lookup "pet_id" = some (DataValue.str p)) ∧
      (∀ n ∈ ns, ∀ (parseRFC3339 : String → Option Nat) (formatMinute : Nat → String),
        ToNotificationRecord parseRFC3339 formatMinute n m ≠
          Outcome.error "pet_id not found in petNameMap") := by
  obtain ⟨hsome, hkeys, _, _⟩ := getPetNameMap_ok h
  refine ⟨hkeys, ?_, ?_⟩
  · intro n hn
    obtain ⟨p, hp⟩ := hsome n hn
    obtain ⟨data, hd, hl⟩ := petIDOf_eq_some hp
    exact ⟨data, p, hd, hl⟩
  · intro n hn parseRFC3339 formatMinute
    obtain ⟨p, hp⟩ := hsome n hn
    obtain ⟨data, hd, hl⟩ := petIDOf_eq_some hp
    obtain ⟨name, hname⟩ := (hkeys p).mpr (List.mem_filterMap.mpr ⟨n, hn, hp⟩)
    exact toNotificationRecord_pet_found parseRFC3339 formatMinute n m data p name hd hl hname

/-- Instance of C29: three notifications for pets p1, p2, p1; the map has p2 and p1, and
the conversion of the first notification does not fail on its pet. -/
theorem pet_not_found_unreachable_witness :
    ToNotificationRecord (fun _ => some 7) (fun _ => "D") (sampleNotification "u1" "p1")
        [("p2", "TestPet"), ("p1", "TestPet")] ≠
      Outcome.error "pet_id not found in petNameMap" :=
  (pet_not_found_unreachable (notifWorld (fun _ => false)) emptyNotifDB
    { emptyNotifDB with lookups := ["p1", "p2"] }
    [sampleNotification "u1" "p1", sampleNotification "u2" "p2", sampleNotification "u3" "p1"]
    [("p2", "TestPet"), ("p1", "TestPet")] rfl).2.2 (sampleNotification "u1" "p1")
    (List.mem_cons_self _ _) (fun _ => some 7) (fun _ => "D")

theorem convertAll_ok (parseRFC3339 : String → Option Nat) (formatMinute : Nat → String)
    (m : List (String × String)) (ns : List Notification)
    (h : ∀ n ∈ ns, ∃ record, ToNotificationRecord parseRFC3339 formatMinute n m =
      Outcome.ok record) :
    ∃ records, NotificationBatchService.convertAll parseRFC3339 formatMinute m ns =
        Outcome.ok records ∧
      List.Forall₂ (fun n record =>
        ToNotificationRecord parseRFC3339 formatMinute n m = Outcome.ok record) ns records := by
  induction ns with
  | nil => exact ⟨[], rfl, List.Forall₂.nil⟩
  | cons n rest ih =>
    obtain ⟨record, hr⟩ := h n (List.mem_cons_self _ _)
    obtain ⟨records, hrs, hall⟩ := ih (fun x hx => h x (List.mem_cons_of_mem _ hx))
    refine ⟨record :: records, ?_, List.Forall₂.cons hr hall⟩
    rw [NotificationBatchService.convertAll, hr]
    simp only [hrs]

theorem createLoop_calls (env : NotifEnv) (records : List NotificationRecord) :
    ∀ (i : Nat) (db : NotifDB) (tx : NotifTx),
      (NotificationRepositoryImpl.createLoop env i records db tx).1.creates = db.creates ∧
      (NotificationRepositoryImpl.createLoop env i records db tx).1.lookups = db.lookups := by
  induction records with
  | nil => intro i db tx; exact ⟨rfl, rfl⟩
  | cons r rest ih =>
    intro i db tx
    rw [NotificationRepositoryImpl.createLoop, NotificationRepositoryImpl.Create]
    cases env.createErr i
    · simp only [Bool.false_eq_true, if_false]
      obtain ⟨h1, h2⟩ := ih (i + 1)
        { db with log := db.log ++ [NotifOp.insert (Handle.tx tx.id) r] }
        { tx with inserts := tx.inserts ++ [r] }
      exact ⟨h1, h2⟩
    · exact ⟨rfl, rfl⟩

theorem createNotifications_calls (env : NotifEnv) (db : NotifDB)
    (records : List NotificationRecord) :
    (NotificationRepositoryImpl.CreateNotifications env db records).1.creates =
        db.creates ++ [records] ∧
      (NotificationRepositoryImpl.CreateNotifications env db records).1.lookups = db.lookups := by
  unfold NotificationRepositoryImpl.CreateNotifications NotificationRepositoryImpl.BeginTx
  cases env.beginErr
  · simp only [Bool.false_eq_true, if_false]
    have hl := createLoop_calls env records 0
      { rows := db.rows, txCount := db.txCount + 1,
        log := db.log ++ [NotifOp.beginTx db.txCount], lookups := db.lookups,
        creates := db.creates ++ [records] }
      { id := db.txCount, inserts := [] }
    generalize NotificationRepositoryImpl.createLoop env 0 records
      { rows := db.rows, txCount := db.txCount + 1,
        log := db.log ++ [NotifOp.beginTx db.txCount], lookups := db.lookups,
        creates := db.creates ++ [records] }
      { id := db.txCount, inserts := [] } = out at hl
    obtain ⟨db2, tx1, res⟩ := out
    cases res with
    | error e => exact hl
    | ok u =>
      simp only [NotifTx.Commit]
      cases env.commitErr
      · exact hl
      · exact hl
  · exact ⟨rfl, rfl⟩

/-- C22. Notification batch run: for every list of notifications on which `getPetNameMap`
succeeds and every conversion succeeds, `Run` makes one `CreateNotifications` call, with
one record per notification, the `i`-th being the conversion of the `i`-th notification,
and does nothing else after the lookups; it calls `GetNameByID` at least once when the
list is not empty; and it returns an error exactly when `CreateNotifications` does. -/
theorem notification_batch_run (env : NotifEnv) (parseRFC3339 : String → Option Nat)
    (formatMinute : Nat → String) (db db1 : NotifDB) (ns : List Notification)
    (m : List (String × String))
    (hpet : NotificationBatchService.getPetNameMap env db ns = (db1, .ok m))
    (hconv : ∀ n ∈ ns, ∃ record, ToNotificationRecord parseRFC3339 formatMinute n m =
      Outcome.ok record) :
    ∃ records,
      List.Forall₂ (fun n record =>
        ToNotificationRecord parseRFC3339 formatMinute n m = Outcome.ok record) ns records ∧
      (NotificationBatchService.Run env parseRFC3339 formatMinute db ns).1 =
        (NotificationRepositoryImpl.CreateNotifications env db1 records).1 ∧
      (NotificationBatchService.Run env parseRFC3339 formatMinute db ns).1.creates =
        db.creates ++ [records] ∧
      (ns ≠ [] → ∃ p calls,
        (NotificationBatchService.Run env parseRFC3339 formatMinute db ns).1.lookups =
          db.lookups ++ p :: calls) ∧
      ((∃ e, (NotificationBatchService.Run env parseRFC3339 formatMinute db ns).2 =
          Outcome.error e) ↔
        ∃ e, (NotificationRepositoryImpl.CreateNotifications env db1 records).2 = .error e) := by
  obtain ⟨records, hrecs, hall⟩ := convertAll_ok parseRFC3339 formatMinute m ns hconv
  obtain ⟨hsome, _, hlook, hcre⟩ := getPetNameMap_ok hpet
  obtain ⟨hc1, hc2⟩ := createNotifications_calls env db1 records
  have hrun : NotificationBatchService.Run env parseRFC3339 formatMinute db ns =
      match NotificationRepositoryImpl.CreateNotifications env db1 records with
      | (db2, .error e) => (db2, Outcome.error ("failed to create notifications: " ++ e))
      | (db2, .ok _) => (db2, Outcome.ok ()) := by
    rw [NotificationBatchService.Run, hpet]
    simp only [hrecs]
  have hfst : (NotificationBatchService.Run env parseRFC3339 formatMinute db ns).1 =
      (NotificationRepositoryImpl.CreateNotifications env db1 records).1 := by
    rw [hrun]
    generalize NotificationRepositoryImpl.CreateNotifications env db1 records = out
    obtain ⟨db2, res⟩ := out
    cases res <;> rfl
  refine ⟨records, hall, hfst, by rw [hfst, hc1, hcre], ?_, ?_⟩
  · intro hne
    rw [hfst, hc2, hlook]
    cases ns with
    | nil => exact absurd rfl hne
    | cons n rest =>
      obtain ⟨p, hp⟩ := hsome n (List.mem_cons_self _ _)
      obtain ⟨_, hmem, _⟩ := foldl_addPetID_spec ((n :: rest).filterMap petIDOf)
        ((n :: rest).filterMap petIDOf) [] [] rfl List.nodup_nil (fun p => Iff.rfl)
        List.Pairwise.nil
      have hin : p ∈ ((n :: rest).filterMap petIDOf).foldl addPetID [] :=
        (hmem p).mpr (List.mem_filterMap.mpr ⟨n, List.mem_cons_self _ _, hp⟩)
      cases hl : ((n :: rest).filterMap petIDOf).foldl addPetID [] with
      | nil => rw [hl] at hin; cases hin
      | cons q calls => exact ⟨q, calls, rfl⟩
  · rw [hrun]
    generalize NotificationRepositoryImpl.CreateNotifications env db1 records = out
    obtain ⟨db2, res⟩ := out
    cases res with
    | error e => simp
    | ok u => simp

/-- Instance of C22: the two-notification case of `TestNotificationBatchService_Run`. -/
theorem notification_batch_run_witness :
    (NotificationBatchService.Run (notifWorld (fun _ => false)) (fun _ => some 7) (fun _ => "D")
        emptyNotifDB [sampleNotification "user1" "pet1", sampleNotification "user2" "pet2"]).1.creates.length
      = 1 := by
  obtain ⟨records, _, _, h, _⟩ := notification_batch_run (notifWorld (fun _ => false))
    (fun _ => some 7) (fun _ => "D") emptyNotifDB
    { emptyNotifDB with lookups := ["pet1", "pet2"] }
    [sampleNotification "user1" "pet1", sampleNotification "user2" "pet2"]
    [("pet2", "TestPet"), ("pet1", "TestPet")] rfl
    (by
      intro n hn
      simp only [List.mem_cons, List.mem_singleton, List.not_mem_nil, or_false] at hn
      rcases hn with rfl | rfl <;> exact ⟨_, rfl⟩)
  rw [h]
  rfl

end SbcntrBatch
